import Mathlib

/-!
Shallow embedding of the mogura-novel validation core (src/tools of the
repository: md.py, story.py, novel.py, toppage.py, publish.py) and proofs
about its specified behaviour.

Modelling conventions:
* A text document is a `List String` of its lines, already split at line
  terminators the way Python text-mode iteration yields them (each line
  without its trailing newline).  File-system access is made explicit via
  `FileData` (missing / not UTF-8 decodable / decoded lines).
* Python exceptions that escape a function are modelled by `Except PyExc`;
  a normal return is `Except.ok`.
* Python `str` whitespace handling (`strip`, `lstrip`) is modelled over the
  ASCII whitespace characters recognised by `Char.isWhitespace`.
* Python `float` mtimes only ever get compared, so they are modelled as
  `Int` values supplied by an explicit `mtime` environment.
* `sorted` in Python is a stable sort with respect to the key; the result
  of any stable sort is uniquely determined by the comparison, so it is
  modelled by `List.insertionSort`, which is stable with respect to the
  same comparison (see the stability conjunct of the C4 theorem).
* Python compares strings lexicographically by code point; this is
  `charListLE` on `String.data`.
-/

deriving instance DecidableEq for Except

namespace Mogura

open scoped List

/-! ### Python string primitives, modelled over `String.data` -/

/-- Python `str.lstrip()` (ASCII whitespace model). -/
def pyLstrip (s : String) : String :=
  ⟨s.data.dropWhile Char.isWhitespace⟩

/-- Python `str.strip()` (ASCII whitespace model). -/
def pyStrip (s : String) : String :=
  ⟨((s.data.dropWhile Char.isWhitespace).reverse.dropWhile Char.isWhitespace).reverse⟩

/-- Python `str.startswith(p)`. -/
def pyStartsWith (s p : String) : Bool :=
  p.data.isPrefixOf s.data

/-- Python `str.endswith(p)`. -/
def pyEndsWith (s p : String) : Bool :=
  p.data.reverse.isPrefixOf s.data.reverse

/-- Python slicing `s[n:]` by code points. -/
def pyDropChars (s : String) (n : Nat) : String :=
  ⟨s.data.drop n⟩

/-- Membership of a character in a Python string (`c in s` for 1-char `c`). -/
def pyContainsChar (s : String) (c : Char) : Bool :=
  s.data.contains c

/-- Python `str.splitlines()`: split at line terminators, no trailing empty
line for a trailing terminator, empty list for the empty string. -/
def pySplitLinesCore : List Char → List Char → List String
  | [], acc => if acc.isEmpty then [] else [⟨acc.reverse⟩]
  | '\r' :: '\n' :: rest, acc => (⟨acc.reverse⟩ : String) :: pySplitLinesCore rest []
  | '\r' :: rest, acc => (⟨acc.reverse⟩ : String) :: pySplitLinesCore rest []
  | '\n' :: rest, acc => (⟨acc.reverse⟩ : String) :: pySplitLinesCore rest []
  | c :: rest, acc => pySplitLinesCore rest (c :: acc)

def pySplitLines (s : String) : List String :=
  pySplitLinesCore s.data []

/-- Python `str.isdigit()` on a character list (ASCII digit model). -/
def pyIsDigitList (l : List Char) : Bool :=
  !l.isEmpty && l.all Char.isDigit

/-- `_is_int_string` from story.py / novel.py. -/
def isIntString (s : String) : Bool :=
  match s.data with
  | [] => false
  | c :: rest => if c = '+' || c = '-' then pyIsDigitList rest else pyIsDigitList (c :: rest)

def digitsToNat (l : List Char) : Nat :=
  l.foldl (fun acc c => acc * 10 + (c.toNat - 48)) 0

/-- Python `int(s)` for strings accepted by `isIntString`. -/
def parseIntStr (s : String) : Int :=
  match s.data with
  | '-' :: rest => -(digitsToNat rest : Int)
  | '+' :: rest => (digitsToNat rest : Int)
  | l => (digitsToNat l : Int)

/-- Lexicographic comparison of character lists by code point, the
comparison Python uses on strings. -/
def charListLE : List Char → List Char → Bool
  | [], _ => true
  | _ :: _, [] => false
  | a :: as, b :: bs =>
    if a.toNat < b.toNat then true
    else if b.toNat < a.toNat then false
    else charListLE as bs

/-- Python `a <= b` on strings. -/
def strLE (a b : String) : Bool :=
  charListLE a.data b.data

/-- Join lines with a line feed (Python `"\n".join(...)`). -/
def joinLines (lines : List String) : String :=
  String.intercalate "\n" lines

def splitOnCharAux (c : Char) : List Char → List Char → List (List Char)
  | [], acc => [acc.reverse]
  | x :: rest, acc =>
    if x = c then acc.reverse :: splitOnCharAux c rest []
    else splitOnCharAux c rest (x :: acc)

/-- Split a string at a separator character. -/
def splitOnChar (c : Char) (s : String) : List String :=
  (splitOnCharAux c s.data []).map fun l => ⟨l⟩

/-- The last path component (Python `Path.name`) of a `/`-separated path. -/
def pathName (p : String) : String :=
  match (splitOnChar '/' p).reverse with
  | [] => p
  | last :: _ => last

def joinSlash : List String → String
  | [] => ""
  | [a] => a
  | a :: rest => a ++ "/" ++ joinSlash rest

/-- The parent directory (Python `Path.parent`) of a `/`-separated path. -/
def pathParent (p : String) : String :=
  joinSlash ((splitOnChar '/' p).dropLast)

/-- Python `pathlib.PurePath.suffix`: the extension from the last dot,
empty when the last dot is the first character or the last character. -/
def pySuffix (name : String) : String :=
  match (name.data.reverse.takeWhile (· ≠ '.')) with
  | rev =>
    if rev.length = name.data.length then ""            -- no dot at all
    else if rev.length = 0 then ""                       -- name ends with a dot
    else if rev.length + 1 = name.data.length then ""    -- the only dot is leading
    else "." ++ (⟨rev.reverse⟩ : String)

/-! ### Section parser (md.py `md_to_json`) -/

/-- The H1 detection of `md_to_json`: a line whose content, after stripping
leading whitespace, starts with `"# "` is a marker; its name is the rest of
the line, stripped.  Mirrors md.py lines 78-80. -/
def markerName (line : String) : Option String :=
  let stripped := pyLstrip line
  if pyStartsWith stripped "# " then some (pyStrip (pyDropChars stripped 2)) else none

/-- The top-level marker names of a document, in order of appearance. -/
def markersOf (lines : List String) : List String :=
  lines.filterMap markerName

structure MdState where
  result : List (String × String)
  currentKey : Option String
  buffer : List String
deriving DecidableEq

def mdKeys (r : List (String × String)) : List String := r.map Prod.fst

/-- Flush the buffer collected for the current key (md.py lines 83-86/98-101). -/
def mdFlush (st : MdState) : List (String × String) :=
  match st.currentKey with
  | some ck => st.result ++ [(ck, joinLines st.buffer)]
  | none => st.result

/-- One line of the `md_to_json` scan.  The error value is the duplicated key. -/
def mdStep (st : MdState) (line : String) : Except String MdState :=
  match markerName line with
  | some key =>
    let flushed := mdFlush st
    if (mdKeys flushed).contains key then Except.error key
    else Except.ok ⟨flushed, some key, []⟩
  | none =>
    match st.currentKey with
    | some _ => Except.ok { st with buffer := st.buffer ++ [line] }
    | none => Except.ok st

def mdRun : MdState → List String → Except String MdState
  | st, [] => Except.ok st
  | st, line :: rest =>
    match mdStep st line with
    | Except.error k => Except.error k
    | Except.ok st₂ => mdRun st₂ rest

/-- `md_to_json` over a document given as its list of lines.  Returns the
ordered section map, or the duplicated key as the error payload of
`JsonKeyDuplicateError`. -/
def mdToJson (lines : List String) : Except String (List (String × String)) :=
  match mdRun ⟨[], none, []⟩ lines with
  | Except.error k => Except.error k
  | Except.ok st => Except.ok (mdFlush st)

/-! ### SHA-256 (hashlib.sha256 over UTF-8 bytes), with `Nat` words mod 2^32 -/

def M32 : Nat := 4294967296

def add32 (a b : Nat) : Nat := (a + b) % M32

def xor32 (a b : Nat) : Nat := a ^^^ b

def and32 (a b : Nat) : Nat := a &&& b

def not32 (a : Nat) : Nat := a ^^^ 4294967295

def rotr32 (n a : Nat) : Nat := ((a >>> n) ||| (a <<< (32 - n))) % M32

/-- UTF-8 encoding of one character, as byte values. -/
def utf8Bytes (c : Char) : List Nat :=
  let v := c.toNat
  if v < 128 then [v]
  else if v < 2048 then [192 ||| (v >>> 6), 128 ||| (v &&& 63)]
  else if v < 65536 then
    [224 ||| (v >>> 12), 128 ||| ((v >>> 6) &&& 63), 128 ||| (v &&& 63)]
  else
    [240 ||| (v >>> 18), 128 ||| ((v >>> 12) &&& 63),
     128 ||| ((v >>> 6) &&& 63), 128 ||| (v &&& 63)]

/-- Python `s.encode("utf-8")` as a byte-value list. -/
def utf8Encode (s : String) : List Nat :=
  (s.data.map utf8Bytes).flatten

/-- The 64 SHA-256 round constants, in decimal. -/
def sha256K : List Nat :=
  [1116352408, 1899447441, 3049323471, 3921009573, 961987163,
   1508970993, 2453635748, 2870763221, 3624381080, 310598401,
   607225278, 1426881987, 1925078388, 2162078206, 2614888103,
   3248222580, 3835390401, 4022224774, 264347078, 604807628,
   770255983, 1249150122, 1555081692, 1996064986, 2554220882,
   2821834349, 2952996808, 3210313671, 3336571891, 3584528711,
   113926993, 338241895, 666307205, 773529912, 1294757372,
   1396182291, 1695183700, 1986661051, 2177026350, 2456956037,
   2730485921, 2820302411, 3259730800, 3345764771, 3516065817,
   3600352804, 4094571909, 275423344, 430227734, 506948616,
   659060556, 883997877, 958139571, 1322822218, 1537002063,
   1747873779, 1955562222, 2024104815, 2227730452, 2361852424,
   2428436474, 2756734187, 3204031479, 3329325298]

structure Sha8 where
  a : Nat
  b : Nat
  c : Nat
  d : Nat
  e : Nat
  f : Nat
  g : Nat
  h : Nat
deriving DecidableEq

/-- The initial SHA-256 hash state, in decimal. -/
def sha256Init : Sha8 :=
  ⟨1779033703, 3144134277, 1013904242, 2773480762,
   1359893119, 2600822924, 528734635, 1541459225⟩

/-- Message-schedule extension: one new word from the last 16. -/
def nextW (w : List Nat) : Nat :=
  let i := w.length
  let w15 := w.getD (i - 15) 0
  let w2 := w.getD (i - 2) 0
  let s0 := xor32 (xor32 (rotr32 7 w15) (rotr32 18 w15)) (w15 >>> 3)
  let s1 := xor32 (xor32 (rotr32 17 w2) (rotr32 19 w2)) (w2 >>> 10)
  add32 (add32 (w.getD (i - 16) 0) s0) (add32 (w.getD (i - 7) 0) s1)

def extendW : List Nat → Nat → List Nat
  | w, 0 => w
  | w, Nat.succ k => extendW (w ++ [nextW w]) k

/-- 4 big-endian bytes to one 32-bit word, over a whole byte list. -/
def bytesToWords : List Nat → List Nat
  | b0 :: b1 :: b2 :: b3 :: rest =>
    (((b0 <<< 24) + (b1 <<< 16) + (b2 <<< 8) + b3) % M32) :: bytesToWords rest
  | _ => []

def compressStep (st : Sha8) (kw : Nat × Nat) : Sha8 :=
  let S1 := xor32 (xor32 (rotr32 6 st.e) (rotr32 11 st.e)) (rotr32 25 st.e)
  let ch := xor32 (and32 st.e st.f) (and32 (not32 st.e) st.g)
  let temp1 := add32 (add32 (add32 st.h S1) (add32 ch kw.1)) kw.2
  let S0 := xor32 (xor32 (rotr32 2 st.a) (rotr32 13 st.a)) (rotr32 22 st.a)
  let maj := xor32 (xor32 (and32 st.a st.b) (and32 st.a st.c)) (and32 st.b st.c)
  let temp2 := add32 S0 maj
  ⟨add32 temp1 temp2, st.a, st.b, st.c, add32 st.d temp1, st.e, st.f, st.g⟩

def compressBlock (hv : Sha8) (block : List Nat) : Sha8 :=
  let w := extendW (bytesToWords block) 48
  let st := (sha256K.zip w).foldl compressStep hv
  ⟨add32 hv.a st.a, add32 hv.b st.b, add32 hv.c st.c, add32 hv.d st.d,
   add32 hv.e st.e, add32 hv.f st.f, add32 hv.g st.g, add32 hv.h st.h⟩

def chunksGo : Nat → List Nat → List (List Nat)
  | _, [] => []
  | 0, _ => []
  | Nat.succ fuel, l => l.take 64 :: chunksGo fuel (l.drop 64)

/-- Split into 64-byte blocks (the fuel is ample: one unit per byte). -/
def chunks64 (l : List Nat) : List (List Nat) :=
  chunksGo l.length l

/-- SHA-256 padding: 0x80, zeros, then the 64-bit big-endian bit length. -/
def sha256Pad (msg : List Nat) : List Nat :=
  let len := msg.length
  let zeros := (64 + 55 - (len % 64)) % 64
  let bitLen := 8 * len
  msg ++ [128] ++ List.replicate zeros 0 ++
    ((List.range 8).map fun i => (bitLen >>> (8 * (7 - i))) % 256)

def hexDigitChar (n : Nat) : Char :=
  if n < 10 then Char.ofNat (48 + n) else Char.ofNat (87 + n)

def wordHex (n : Nat) : List Char :=
  (List.range 8).map fun i => hexDigitChar ((n >>> (4 * (7 - i))) % 16)

def sha256Words (msg : List Nat) : Sha8 :=
  (chunks64 (sha256Pad msg)).foldl compressBlock sha256Init

/-- `hashlib.sha256(msg).hexdigest()` for a byte list. -/
def sha256Hex (msg : List Nat) : String :=
  let hv := sha256Words msg
  ⟨([hv.a, hv.b, hv.c, hv.d, hv.e, hv.f, hv.g, hv.h].map wordHex).flatten⟩

/-- SHA-256 hex digest of a UTF-8 string. -/
def sha256HexOfString (s : String) : String :=
  sha256Hex (utf8Encode s)

/-! ### File-system and exception model -/

/-- The observable states of a file targeted by a validator. -/
inductive FileData
  | missing
  | undecodable
  | content (lines : List String)
deriving DecidableEq

/-- Python exceptions that can escape the validators. -/
inductive PyExc
  | unicodeDecodeError
deriving DecidableEq

/-! ### Story validator (story.py) -/

structure Story where
  path : String
  title : String
  number : Int
  content : String
  length : Nat
deriving DecidableEq

/-- Lookup in an ordered section map (Python `dict` lookup). -/
def lookupStr (data : List (String × String)) (k : String) : Option String :=
  (data.find? fun kv => kv.1 = k).map Prod.snd

def hasKey (data : List (String × String)) (k : String) : Bool :=
  (lookupStr data k).isSome

/-- `_count_text_length`: characters of the body excluding line breaks. -/
def countTextLength (s : String) : Nat :=
  (s.data.filter fun c => !(c = '\n' || c = '\r')).length

def storyAllowedKeys : List String := ["title", "number", "content"]

/-- The parsed `number` value of story.py lines 76-82: present, non-blank
and integer-shaped, otherwise `none`. -/
def storyNumberVal (data : List (String × String)) : Option Int :=
  let raw := (lookupStr data "number").getD ""
  if hasKey data "number" && !(pyStrip raw).isEmpty && isIntString (pyStrip raw)
  then some (parseIntStr (pyStrip raw)) else none

/-- All validation errors collected by `Story.load_if_valid` (story.py lines
44-82), in source order.  Python iterates the `allowed_keys` set literal for
the missing-header check; the set order is unspecified, and this embedding
fixes it to the literal order title, number, content. -/
def storyErrors (data : List (String × String)) : List String :=
  let title := (lookupStr data "title").getD ""
  let numberRaw := (lookupStr data "number").getD ""
  let contentV := (lookupStr data "content").getD ""
  (if data.isEmpty then ["No H1 headers found. Required headers: title, number, content"] else [])
  ++ (data.filterMap fun kv =>
        if !storyAllowedKeys.contains kv.1 then some ("Unexpected header: " ++ kv.1) else none)
  ++ (storyAllowedKeys.filterMap fun k =>
        if !hasKey data k then some ("Missing required header: " ++ k) else none)
  ++ (if hasKey data "title" && (pyStrip title).isEmpty then ["`title` must not be empty"] else [])
  ++ (if hasKey data "number" && (pyStrip numberRaw).isEmpty then ["`number` must not be empty"] else [])
  ++ (if hasKey data "content" && (pyStrip contentV).isEmpty then ["`content` must not be empty"] else [])
  ++ (if hasKey data "title" && (pyContainsChar title '\n' || pyContainsChar title '\r')
      then ["`title` must be a single line"] else [])
  ++ (if hasKey data "number" && !(pyStrip numberRaw).isEmpty && !isIntString (pyStrip numberRaw)
      then ["`number` must be an integer"] else [])

/-- The Story built on the success path of `Story.load_if_valid`.  The
`number` default 0 is unreachable: success implies `storyNumberVal` is
`some` (see `storyErrors_nil_numberVal`). -/
def buildStory (path : String) (data : List (String × String)) : Story :=
  let title := (lookupStr data "title").getD ""
  let contentV := (lookupStr data "content").getD ""
  { path := path
    title := pyStrip title
    number := (storyNumberVal data).getD 0
    content := contentV
    length := countTextLength contentV }

/-- `Story.load_if_valid`.  A missing file and a duplicate header are single
descriptive errors; a file that does not decode as UTF-8 makes the uncaught
`UnicodeDecodeError` escape `md.md_to_json`. -/
def storyLoadIfValid (path : String) (fd : FileData) : Except PyExc (Story ⊕ List String) :=
  match fd with
  | FileData.missing => Except.ok (Sum.inr ["Story file not found: " ++ path])
  | FileData.undecodable => Except.error PyExc.unicodeDecodeError
  | FileData.content lines =>
    match mdToJson lines with
    | Except.error k => Except.ok (Sum.inr ["Duplicate header: Duplicate key found: " ++ k])
    | Except.ok data =>
      let errs := storyErrors data
      if errs.isEmpty then Except.ok (Sum.inl (buildStory path data))
      else Except.ok (Sum.inr errs)

/-- `Story.hash`: SHA-256 hex digest of `f"{title}\n{number}\n{content}"`. -/
def storyHash (s : Story) : String :=
  sha256HexOfString (s.title ++ "\n" ++ toString s.number ++ "\n" ++ s.content)

/-! ### Novel validator (novel.py) -/

structure Novel where
  path : String
  title : String
  tags : String
  status : String
  outline : String
  external_links : Option String
  chapters : Option (List (String × Int))
  has_external_links : Bool
  has_chapters : Bool
  stories : List Story
  num_stories : Nat
  total_length : Nat
deriving DecidableEq

def novelAllowedKeys : List String :=
  ["title", "tags", "status", "outline", "external links", "chapters"]

def novelRequiredKeys : List String := ["title", "tags", "status", "outline"]

def validStatusList : List String := ["連載中", "完結済", "更新停止"]

/-- `[line.strip() for line in v.strip().splitlines() if line.strip()]`. -/
def nonblankStripped (v : String) : List String :=
  (pySplitLines (pyStrip v)).filterMap fun line =>
    if (pyStrip line).isEmpty then none else some (pyStrip line)

/-- Substring containment (`sub in s` in Python). -/
def subIn : List Char → List Char → Bool
  | sub, [] => sub.isPrefixOf []
  | sub, c :: rest => sub.isPrefixOf (c :: rest) || subIn sub rest

/-- tags rule, novel.py lines 80-89. -/
def tagsErrors (v : String) : List String :=
  let tagLines := nonblankStripped v
  if tagLines.isEmpty || tagLines.any (fun l => !pyStartsWith l "- ")
  then ["`tags` must be a Markdown list with at least one item"] else []

/-- status rule, novel.py lines 92-98. -/
def statusErrors (v : String) : List String :=
  if !validStatusList.contains (pyStrip v)
  then ["`status` must be one of \"連載中\", \"完結済\", \"更新停止\""] else []

/-- external links item loop with break semantics, novel.py lines 115-137. -/
def extLinksLoop : List String → List String
  | [] => []
  | l :: rest =>
    if !pyStartsWith l "- " then ["`external links` must be a Markdown list"]
    else
      let item := pyStrip (pyDropChars l 2)
      if !(pyStartsWith item "[" && subIn "](".data item.data && pyEndsWith item ")")
      then ["Each `external links` item must contain a Markdown link like \"[text](url)\" inside quotes"]
      else extLinksLoop rest

/-- external links rule, novel.py lines 104-137 (errors only). -/
def extLinksErrors (v : String) : List String :=
  let lines := nonblankStripped v
  if lines.isEmpty then ["`external links` must be a Markdown list with at least one item"]
  else extLinksLoop lines

/-- First component of Python `l.split(":", 1)` and the remainder; `none`
when the line has no colon. -/
def splitColon1 : List Char → Option (List Char × List Char)
  | [] => none
  | ':' :: rest => some ([], rest)
  | c :: rest => (splitColon1 rest).map fun p => (c :: p.1, p.2)

/-- chapters line loop with break semantics, novel.py lines 158-189.  On the
first bad line the partially built mapping is discarded. -/
def chaptersParseLoop : List String → List (String × Int) → List String × List (String × Int)
  | [], tmp => ([], tmp)
  | l :: rest, tmp =>
    match splitColon1 l.data with
    | none => (["`chapters` must be in '章タイトル: 章区切り番号' format"], [])
    | some (kRaw, vRaw) =>
      let k := pyStrip ⟨kRaw⟩
      let v := pyStrip ⟨vRaw⟩
      if k.isEmpty || v.isEmpty then (["`chapters` must be valid key: value pairs"], [])
      else if (tmp.map Prod.fst).contains k then (["`chapters` titles must be unique"], [])
      else if !isIntString v then (["`chapters` values must be integers"], [])
      else if (tmp.map Prod.snd).contains (parseIntStr v) then (["`chapters` numbers must be unique"], [])
      else chaptersParseLoop rest (tmp ++ [(k, parseIntStr v)])

/-- chapters rule, novel.py lines 143-189: the collected errors and the raw
(unsorted) mapping. -/
def novelChapterParse (data : List (String × String)) : List String × List (String × Int) :=
  match lookupStr data "chapters" with
  | none => ([], [])
  | some v =>
    let lines := nonblankStripped v
    if lines.isEmpty then (["`chapters` must not be empty if provided"], [])
    else chaptersParseLoop lines []

/-- Index-document errors before the external links block, novel.py lines
53-98, in source order.  The missing-header loop iterates a Python set
literal whose order is unspecified; this embedding fixes the literal order. -/
def novelBaseErrors (data : List (String × String)) : List String :=
  let titleV := (lookupStr data "title").getD ""
  (if data.isEmpty then ["No H1 headers found. Required headers: title, tags, status, outline"] else [])
  ++ (data.filterMap fun kv =>
        if !novelAllowedKeys.contains kv.1 then some ("Unexpected header: " ++ kv.1) else none)
  ++ (novelRequiredKeys.filterMap fun k =>
        if !hasKey data k then some ("Missing required header: " ++ k) else none)
  ++ (data.filterMap fun kv =>
        if (pyStrip kv.2).isEmpty then some ("`" ++ kv.1 ++ "` must not be empty") else none)
  ++ (if hasKey data "title" && (pyContainsChar titleV '\n' || pyContainsChar titleV '\r')
      then ["`title` must be a single line"] else [])
  ++ (match lookupStr data "tags" with | some v => tagsErrors v | none => [])
  ++ (match lookupStr data "status" with | some v => statusErrors v | none => [])

def novelExtErrors (data : List (String × String)) : List String :=
  match lookupStr data "external links" with
  | none => []
  | some v => extLinksErrors v

/-- All errors of the index-document phase (before the gate at novel.py
line 197), in source order. -/
def novelHeaderErrors (data : List (String × String)) : List String :=
  novelBaseErrors data ++ novelExtErrors data ++ (novelChapterParse data).1

/-- `external_links_str`: kept only when the external links key is present
and no error has been recorded up to the end of its block (line 138). -/
def novelExternalLinksVal (data : List (String × String)) : Option String :=
  match lookupStr data "external links" with
  | none => none
  | some v =>
    if (novelBaseErrors data ++ extLinksErrors v).isEmpty then some v else none

/-- `chapters_dict`: the parsed mapping re-sorted ascending by boundary
number, kept only when parsing yielded entries and no error has been
recorded (line 190). -/
def novelChaptersVal (data : List (String × String)) : Option (List (String × Int)) :=
  let tmp := (novelChapterParse data).2
  if !tmp.isEmpty && (novelHeaderErrors data).isEmpty
  then some (List.insertionSort (fun a b => a.2 ≤ b.2) tmp) else none

/-- The story files of the novel directory, novel.py lines 202-210: `.md`
files other than `index.md` and files with the reserved `_` name, in
filename order.  The listing holds regular files only. -/
def storyFilesOf (files : List (String × FileData)) : List (String × FileData) :=
  List.insertionSort (fun a b => strLE a.1 b.1 = true)
    (files.filter fun nf =>
      pySuffix nf.1 = ".md" && nf.1 ≠ "index.md" && !pyStartsWith nf.1 "_")

/-- Story collection loop, novel.py lines 212-219: valid Stories in file
order and path-prefixed error messages; an escaping exception aborts. -/
def collectStories (dirPath : String) : List (String × FileData) → Except PyExc (List Story × List String)
  | [] => Except.ok ([], [])
  | (name, fd) :: rest =>
    match storyLoadIfValid (dirPath ++ "/" ++ name) fd with
    | Except.error e => Except.error e
    | Except.ok (Sum.inl st) =>
      match collectStories dirPath rest with
      | Except.error e => Except.error e
      | Except.ok (sts, errs) => Except.ok (st :: sts, errs)
    | Except.ok (Sum.inr msgs) =>
      match collectStories dirPath rest with
      | Except.error e => Except.error e
      | Except.ok (sts, errs) =>
        Except.ok (sts, (msgs.map fun m => dirPath ++ "/" ++ name ++ ": " ++ m) ++ errs)

/-- Keys of a list in first-occurrence order (Python `Counter` key order). -/
def firstOccurrences (l : List Int) : List Int :=
  l.foldl (fun acc n => if acc.contains n then acc else acc ++ [n]) []

/-- Duplicate story-number errors, novel.py lines 224-227. -/
def dupNumErrors (nums : List Int) : List String :=
  (firstOccurrences nums).filterMap fun v =>
    if nums.count v > 1 then some ("Duplicate story number found: " ++ toString v) else none

/-- `_find_chapter_for_number`, novel.py lines 315-326: the first chapter,
in ascending boundary order, whose boundary is at least the story number. -/
def findChapterForNumber (number : Int) : List (String × Int) → Option String
  | [] => none
  | (t, b) :: rest => if number ≤ b then some t else findChapterForNumber number rest

def chapterMsg (s : Story) : String :=
  "Story " ++ pathName s.path ++ " (number=" ++ toString s.number ++ ") does not belong to any chapter"

/-- Chapter-membership errors, novel.py lines 229-237. -/
def chapterCheckErrors (bounds : List (String × Int)) (stories : List Story) : List String :=
  stories.filterMap fun s =>
    if (findChapterForNumber s.number bounds).isNone then some (chapterMsg s) else none

def chapterGateErrors (data : List (String × String)) (stories : List Story) : List String :=
  match novelChaptersVal data with
  | some bounds => chapterCheckErrors bounds stories
  | none => []

def sortStoriesByNumber (stories : List Story) : List Story :=
  List.insertionSort (fun a b => a.number ≤ b.number) stories

/-- The Novel built on the success path, novel.py lines 241-259. -/
def buildNovel (indexPath : String) (data : List (String × String)) (stories : List Story) : Novel :=
  let sorted := sortStoriesByNumber stories
  { path := indexPath
    title := pyStrip ((lookupStr data "title").getD "")
    tags := (lookupStr data "tags").getD ""
    status := pyStrip ((lookupStr data "status").getD "")
    outline := (lookupStr data "outline").getD ""
    external_links := novelExternalLinksVal data
    chapters := novelChaptersVal data
    has_external_links := (novelExternalLinksVal data).isSome
    has_chapters := (novelChaptersVal data).isSome
    stories := sorted
    num_stories := sorted.length
    total_length := (sorted.map Story.length).sum }

def lookupFile (files : List (String × FileData)) (name : String) : FileData :=
  ((files.find? fun nf => nf.1 = name).map Prod.snd).getD FileData.missing

/-- `Novel.load_if_valid` over the directory listing of the novel directory.
`dirPath` is the directory path; the index document is `dirPath/index.md`. -/
def novelLoadIfValid (dirPath : String) (files : List (String × FileData)) :
    Except PyExc (Novel ⊕ List String) :=
  let indexPath := dirPath ++ "/index.md"
  match lookupFile files "index.md" with
  | FileData.missing => Except.ok (Sum.inr ["Novel index file not found: " ++ indexPath])
  | FileData.undecodable => Except.error PyExc.unicodeDecodeError
  | FileData.content lines =>
    match mdToJson lines with
    | Except.error k => Except.ok (Sum.inr ["Duplicate header: Duplicate key found: " ++ k])
    | Except.ok data =>
      let hdrErrs := novelHeaderErrors data
      if hdrErrs.isEmpty then
        match collectStories dirPath (storyFilesOf files) with
        | Except.error e => Except.error e
        | Except.ok (stories, storyErrs) =>
          let errs := storyErrs ++ dupNumErrors (stories.map Story.number)
              ++ chapterGateErrors data stories
          if errs.isEmpty then Except.ok (Sum.inl (buildNovel indexPath data stories))
          else Except.ok (Sum.inr errs)
      else Except.ok (Sum.inr hdrErrs)

/-! ### Chapter-grouped view (`Novel.get_stories_ordered`) -/

inductive StoriesView
  | flat (stories : List Story)
  | grouped (groups : List (String × List Story))
deriving DecidableEq

def appendToGroup (groups : List (String × List Story)) (t : String) (s : Story) :
    List (String × List Story) :=
  groups.map fun g => if g.1 = t then (g.1, g.2 ++ [s]) else g

def groupStep (bounds : List (String × Int)) (groups : List (String × List Story)) (s : Story) :
    List (String × List Story) :=
  match findChapterForNumber s.number bounds with
  | some t => appendToGroup groups t s
  | none => groups

/-- novel.py lines 274-284: empty chapter buckets in boundary order, filled
by scanning the stored (number-ordered) stories. -/
def buildGroups (bounds : List (String × Int)) (stories : List Story) :
    List (String × List Story) :=
  stories.foldl (groupStep bounds) (bounds.map fun tb => (tb.1, []))

/-- `Novel.get_stories_ordered`, novel.py lines 261-284. -/
def getStoriesOrdered (n : Novel) : StoriesView :=
  match n.chapters with
  | none => StoriesView.flat n.stories
  | some ch =>
    if !n.has_chapters || ch.isEmpty then StoriesView.flat n.stories
    else StoriesView.grouped (buildGroups ch n.stories)

/-! ### TopPage aggregator (toppage.py) -/

structure TopPage where
  path : String
  title : String
  url : String
  self_intro : String
  novels : List Novel
  novel_directories : List String
deriving DecidableEq

/-- `_STATUS_ORDER.get(status, 999)`, toppage.py lines 13-17 and 106. -/
def statusOrder (status : String) : Nat :=
  if status = "連載中" then 0
  else if status = "完結済" then 1
  else if status = "更新停止" then 2
  else 999

/-- `novel_last_updated`, toppage.py lines 89-102: the maximum mtime over
the index document and all story documents, skipping unreadable ones,
defaulting to 0.  `mtime` is the file-system environment. -/
def novelLastUpdated (mtime : String → Option Int) (n : Novel) : Int :=
  let times := (mtime n.path).toList ++ n.stories.filterMap fun s => mtime s.path
  (times.max?).getD 0

/-- `sort_key`, toppage.py lines 104-107. -/
def novelSortKey (mtime : String → Option Int) (n : Novel) : Int × Nat × String :=
  (-(novelLastUpdated mtime n), statusOrder n.status, n.title)

/-- Lexicographic less-or-equal on the composite sort key (ascending order
of Python tuple comparison). -/
def keyTupleLE (x y : Int × Nat × String) : Bool :=
  decide (x.1 < y.1) ||
    (decide (x.1 = y.1) &&
      (decide (x.2.1 < y.2.1) || (decide (x.2.1 = y.2.1) && strLE x.2.2 y.2.2)))

def novelLE (mtime : String → Option Int) (a b : Novel) : Bool :=
  keyTupleLE (novelSortKey mtime a) (novelSortKey mtime b)

/-- The stable sort of accepted Novels, toppage.py line 109. -/
def topPageSortNovels (mtime : String → Option Int) (novels : List Novel) : List Novel :=
  List.insertionSort (fun a b => novelLE mtime a b = true) novels

/-- Novel discovery loop, toppage.py lines 63-77: subdirectories with an
index document, validated in turn; errors are path-prefixed and collected.
The listing holds the subdirectories of the parent directory in name order;
an escaping exception aborts. -/
def scanNovels (parentDir : String) :
    List (String × List (String × FileData)) → Except PyExc (List (Novel × String) × List String)
  | [] => Except.ok ([], [])
  | (name, files) :: rest =>
    if (files.find? fun nf => nf.1 = "index.md").isNone then scanNovels parentDir rest
    else
      match novelLoadIfValid (parentDir ++ "/" ++ name) files with
      | Except.error e => Except.error e
      | Except.ok (Sum.inl nv) =>
        match scanNovels parentDir rest with
        | Except.error e => Except.error e
        | Except.ok (nvs, errs) => Except.ok ((nv, parentDir ++ "/" ++ name) :: nvs, errs)
      | Except.ok (Sum.inr msgs) =>
        match scanNovels parentDir rest with
        | Except.error e => Except.error e
        | Except.ok (nvs, errs) =>
          Except.ok (nvs,
            (msgs.map fun m => parentDir ++ "/" ++ name ++ "/index.md: " ++ m) ++ errs)

/-- `TopPage.load_if_valid`.  `fd` is the self-intro document, `dirs` the
subdirectory listings of its parent directory, `mtime` the file-system
modification-time environment. -/
def topPageLoadIfValid (selfIntroPath : String) (fd : FileData)
    (dirs : List (String × List (String × FileData))) (mtime : String → Option Int) :
    Except PyExc (TopPage ⊕ List String) :=
  match fd with
  | FileData.missing => Except.ok (Sum.inr ["Self intro file not found: " ++ selfIntroPath])
  | FileData.undecodable =>
    Except.ok (Sum.inr ["Self intro file is not valid UTF-8: " ++ selfIntroPath])
  | FileData.content lines =>
    let raw := joinLines lines
    if (pyStrip raw).isEmpty then Except.ok (Sum.inr ["Self intro must not be empty"])
    else
      let parentDir := pathParent selfIntroPath
      match scanNovels parentDir (List.insertionSort (fun a b => strLE a.1 b.1 = true) dirs) with
      | Except.error e => Except.error e
      | Except.ok (pairs, errs) =>
        if errs.isEmpty then
          Except.ok (Sum.inl
            { path := selfIntroPath
              title := "もぐらノベル"
              url := "https://www.mogura-novel.com/"
              self_intro := pyStrip raw
              novels := topPageSortNovels mtime (pairs.map Prod.fst)
              novel_directories :=
                (List.insertionSort (fun a b => novelLE mtime a.1 b.1 = true) pairs).map
                  Prod.snd })
        else Except.ok (Sum.inr errs)

/-! ### Change-tracking history (publish.py `update_history_entry`) -/

/-- The in-memory history store: an insertion-ordered mapping from
normalized path to (content hash, ISO timestamp). -/
abbrev History := List (String × String × String)

/-- `str(key).replace("\\", "/")`, publish.py line 59. -/
def normalizeKey (s : String) : String :=
  ⟨s.data.map fun c => if c = '\\' then '/' else c⟩

/-- `history.get(key_str)`. -/
def histGet : History → String → Option (String × String)
  | [], _ => none
  | (k, v) :: rest, key => if k = key then some v else histGet rest key

/-- `history[key_str] = value` on a dict: replace in place, else append. -/
def histSet : History → String → String × String → History
  | [], key, v => [(key, v)]
  | (k, w) :: rest, key, v =>
    if k = key then (key, v) :: rest else (k, w) :: histSet rest key v

/-- `update_history_entry`, publish.py lines 53-65: the updated store and
the returned timestamp. -/
def updateHistoryEntry (history : History) (key newHash nowIso : String) :
    History × String :=
  let keyStr := normalizeKey key
  match histGet history keyStr with
  | none => (histSet history keyStr (newHash, nowIso), nowIso)
  | some old =>
    if old.1 ≠ newHash then (histSet history keyStr (newHash, nowIso), nowIso)
    else (history, old.2)

/-! ### Supporting lemmas: history store -/

theorem histGet_histSet_self (h : History) (k : String) (v : String × String) :
    histGet (histSet h k v) k = some v := by
  induction h with
  | nil => simp [histSet, histGet]
  | cons e rest ih =>
    obtain ⟨k₀, v₀⟩ := e
    by_cases hk : k₀ = k
    · simp [histSet, hk, histGet]
    · simp [histSet, hk, histGet, ih]

theorem histSet_mem (h : History) (k : String) (v : String × String) :
    ∀ e ∈ histSet h k v, e ∈ h ∨ e = (k, v) := by
  induction h with
  | nil => simp [histSet]
  | cons e₀ rest ih =>
    obtain ⟨k₀, v₀⟩ := e₀
    intro e he
    by_cases hk : k₀ = k
    · simp only [histSet, if_pos hk, List.mem_cons] at he
      rcases he with he | he
      · right; exact he
      · left; exact List.mem_cons_of_mem _ he
    · simp only [histSet, if_neg hk, List.mem_cons] at he
      rcases he with he | he
      · left; exact he ▸ List.mem_cons_self _ _
      · rcases ih e he with h1 | h2
        · left; exact List.mem_cons_of_mem _ h1
        · right; exact h2

theorem normalizeKey_no_backslash (k : String) : '\\' ∉ (normalizeKey k).data := by
  intro hmem
  simp only [normalizeKey, List.mem_map] at hmem
  obtain ⟨c, -, hc⟩ := hmem
  by_cases h : c = '\\' <;> simp [h] at hc

/-! ### Claim C2: record semantics of `update_history_entry` -/

/-- Claim C2: `update_history_entry` writes `(hash, now)` and returns `now`
when the key is absent or the stored hash differs; otherwise it leaves the
entry untouched and returns the stored timestamp.  Hence two successive
calls with the same hash return the same timestamp and the second call
leaves the store unchanged, while a call with a changed hash returns the
new now. -/
theorem update_history_entry_semantics :
    (∀ (h : History) (k a now : String), histGet h (normalizeKey k) = none →
       updateHistoryEntry h k a now = (histSet h (normalizeKey k) (a, now), now))
    ∧ (∀ (h : History) (k a now : String) (old : String × String),
         histGet h (normalizeKey k) = some old → old.1 ≠ a →
         updateHistoryEntry h k a now = (histSet h (normalizeKey k) (a, now), now))
    ∧ (∀ (h : History) (k a now : String) (old : String × String),
         histGet h (normalizeKey k) = some old → old.1 = a →
         updateHistoryEntry h k a now = (h, old.2))
    ∧ (∀ (h : History) (k a n₁ n₂ : String),
         updateHistoryEntry (updateHistoryEntry h k a n₁).1 k a n₂ =
           ((updateHistoryEntry h k a n₁).1, (updateHistoryEntry h k a n₁).2))
    ∧ (∀ (h : History) (k a a₂ n₁ n₂ : String), a ≠ a₂ →
         (updateHistoryEntry (updateHistoryEntry h k a n₁).1 k a₂ n₂).2 = n₂) := by
  refine ⟨?_, ?_, ?_, ?_, ?_⟩
  · intro h k a now hget
    simp [updateHistoryEntry, hget]
  · intro h k a now old hget hne
    simp [updateHistoryEntry, hget, hne]
  · intro h k a now old hget heq
    simp [updateHistoryEntry, hget, heq]
  · intro h k a n₁ n₂
    unfold updateHistoryEntry
    cases hget : histGet h (normalizeKey k) with
    | none =>
      simp only [hget]
      simp [histGet_histSet_self]
    | some old =>
      by_cases hne : old.1 ≠ a
      · simp only [hget, if_pos hne]
        simp [histGet_histSet_self]
      · simp only [hget, if_neg hne]
  · intro h k a a₂ n₁ n₂ hne
    unfold updateHistoryEntry
    cases hget : histGet h (normalizeKey k) with
    | none =>
      simp only [hget]
      simp [histGet_histSet_self, hne]
    | some old =>
      by_cases hold : old.1 ≠ a
      · simp only [hget, if_pos hold]
        simp [histGet_histSet_self, hne]
      · simp only [hget, if_neg hold]
        simp only [ne_eq, not_not] at hold
        simp [hget, hold, hne]

/-- Witness for C2 at a concrete store. -/
theorem update_history_entry_semantics_w :
    histGet ([] : History) (normalizeKey "a.md") = none
    ∧ updateHistoryEntry ([] : History) "a.md" "h1" "t1" =
        (histSet ([] : History) (normalizeKey "a.md") ("h1", "t1"), "t1")
    ∧ updateHistoryEntry
        (updateHistoryEntry ([] : History) "a.md" "h1" "t1").1 "a.md" "h1" "t9" =
        ((updateHistoryEntry ([] : History) "a.md" "h1" "t1").1,
         (updateHistoryEntry ([] : History) "a.md" "h1" "t1").2)
    ∧ ("h1" : String) ≠ "h2"
    ∧ (updateHistoryEntry
        (updateHistoryEntry ([] : History) "a.md" "h1" "t1").1 "a.md" "h2" "t9").2 = "t9" :=
  ⟨by decide,
   update_history_entry_semantics.1 [] "a.md" "h1" "t1" (by decide),
   update_history_entry_semantics.2.2.2.1 [] "a.md" "h1" "t1" "t9",
   by decide,
   update_history_entry_semantics.2.2.2.2 [] "a.md" "h1" "h2" "t1" "t9" (by decide)⟩

/-! ### Claim C10: path-key normalization invariant -/

/-- Claim C10: `update_history_entry` normalizes its key by replacing every
backslash with a forward slash before lookup and insertion, so separator
spellings address the same entry and stored keys never contain a
backslash — an invariant preserved by every record call. -/
theorem update_history_entry_key_normalization :
    (∀ k : String, '\\' ∉ (normalizeKey k).data)
    ∧ (∀ (h : History) (k₁ k₂ a now : String), normalizeKey k₁ = normalizeKey k₂ →
         updateHistoryEntry h k₁ a now = updateHistoryEntry h k₂ a now)
    ∧ (∀ (h : History) (k a now : String), (∀ e ∈ h, '\\' ∉ e.1.data) →
         ∀ e ∈ (updateHistoryEntry h k a now).1, '\\' ∉ e.1.data)
    ∧ normalizeKey "a\\b.md" = "a/b.md" ∧ normalizeKey "a/b.md" = "a/b.md" := by
  refine ⟨normalizeKey_no_backslash, ?_, ?_, by decide, by decide⟩
  · intro h k₁ k₂ a now heq
    unfold updateHistoryEntry
    rw [heq]
  · intro h k a now hinv e he
    unfold updateHistoryEntry at he
    cases hget : histGet h (normalizeKey k) with
    | none =>
      simp only [hget] at he
      rcases histSet_mem h (normalizeKey k) (a, now) e he with hm | hm
      · exact hinv e hm
      · rw [hm]
        exact normalizeKey_no_backslash k
    | some old =>
      by_cases hne : old.1 ≠ a
      · simp only [hget, if_pos hne] at he
        rcases histSet_mem h (normalizeKey k) (a, now) e he with hm | hm
        · exact hinv e hm
        · rw [hm]
          exact normalizeKey_no_backslash k
      · simp only [hget, if_neg hne] at he
        exact hinv e he

/-- Witness for C10 at concrete keys and store. -/
theorem update_history_entry_key_normalization_w :
    normalizeKey "dir\\f.md" = normalizeKey "dir/f.md"
    ∧ updateHistoryEntry ([("x/y.md", "h0", "t0")] : History) "dir\\f.md" "h1" "t1" =
        updateHistoryEntry ([("x/y.md", "h0", "t0")] : History) "dir/f.md" "h1" "t1"
    ∧ (∀ e ∈ ([("x/y.md", "h0", "t0")] : History), '\\' ∉ e.1.data)
    ∧ (∀ e ∈ (updateHistoryEntry ([("x/y.md", "h0", "t0")] : History) "dir\\f.md" "h1" "t1").1,
        '\\' ∉ e.1.data) :=
  ⟨by decide,
   update_history_entry_key_normalization.2.1
     [("x/y.md", "h0", "t0")] "dir\\f.md" "dir/f.md" "h1" "t1" (by decide),
   by decide,
   update_history_entry_key_normalization.2.2.1
     [("x/y.md", "h0", "t0")] "dir\\f.md" "h1" "t1" (by decide)⟩

/-! ### Supporting lemmas: SHA-256 digest shape -/

theorem wordHex_length (n : Nat) : (wordHex n).length = 8 := by
  simp [wordHex]

theorem sha256Hex_length (msg : List Nat) : (sha256Hex msg).length = 64 := by
  simp [sha256Hex, String.length, wordHex_length]

/-- A lowercase hexadecimal digit. -/
def isHexChar (c : Char) : Bool :=
  ('0' ≤ c && c ≤ '9') || ('a' ≤ c && c ≤ 'f')

theorem hexDigitChar_isHexChar (r : Nat) (h : r < 16) : isHexChar (hexDigitChar r) := by
  interval_cases r <;> decide

theorem sha256Hex_isHex (msg : List Nat) : ∀ c ∈ (sha256Hex msg).data, isHexChar c := by
  intro c hc
  simp only [sha256Hex, List.mem_flatten, List.mem_map] at hc
  obtain ⟨l, ⟨w, -, hw⟩, hcl⟩ := hc
  subst hw
  simp only [wordHex, List.mem_map, List.mem_range] at hcl
  obtain ⟨i, -, hci⟩ := hcl
  subst hci
  exact hexDigitChar_isHexChar _ (Nat.mod_lt _ (by omega))

/-! ### Claim C6: the story hash -/

set_option maxRecDepth 20000 in
/-- Claim C6: `Story.hash` is the 256-bit SHA-256 digest (64 lowercase hex
characters) of title, the decimal string of number, and content, in that
order, separated by line breaks; Stories with identical (title, number,
content) hash identically regardless of their paths.  The last conjunct
pins the digest function to SHA-256 via the standard `"abc"` test vector. -/
theorem story_hash_spec :
    (∀ s : Story,
       storyHash s = sha256Hex (utf8Encode (s.title ++ "\n" ++ toString s.number ++ "\n" ++ s.content)))
    ∧ (∀ s : Story, (storyHash s).length = 64 ∧ ∀ c ∈ (storyHash s).data, isHexChar c)
    ∧ (∀ s₁ s₂ : Story, s₁.title = s₂.title → s₁.number = s₂.number →
         s₁.content = s₂.content → storyHash s₁ = storyHash s₂)
    ∧ sha256HexOfString "abc" =
        "ba7816bf8f01cfea414140de5dae2223b00361a396177a9cb410ff61f20015ad" := by
  refine ⟨fun s => rfl, fun s => ⟨sha256Hex_length _, sha256Hex_isHex _⟩, ?_, by decide⟩
  intro s₁ s₂ ht hn hc
  simp [storyHash, sha256HexOfString, ht, hn, hc]

/-- Witness for C6: two Stories that differ only in path hash identically. -/
theorem story_hash_spec_w :
    ({ path := "a/1.md", title := "T", number := 3, content := "body", length := 4 } : Story).title =
      ({ path := "b/2.md", title := "T", number := 3, content := "body", length := 4 } : Story).title
    ∧ storyHash { path := "a/1.md", title := "T", number := 3, content := "body", length := 4 } =
        storyHash { path := "b/2.md", title := "T", number := 3, content := "body", length := 4 } :=
  ⟨rfl,
   story_hash_spec.2.2.1
     { path := "a/1.md", title := "T", number := 3, content := "body", length := 4 }
     { path := "b/2.md", title := "T", number := 3, content := "body", length := 4 }
     rfl rfl rfl⟩

/-! ### Supporting lemmas: chapter partition -/

theorem findChapterForNumber_none_iff (n : Int) (bounds : List (String × Int)) :
    findChapterForNumber n bounds = none ↔ ∀ p ∈ bounds, p.2 < n := by
  induction bounds with
  | nil => simp [findChapterForNumber]
  | cons tb rest ih =>
    obtain ⟨t, b⟩ := tb
    by_cases hle : n ≤ b
    · simp [findChapterForNumber, hle]
    · simp [findChapterForNumber, hle, ih]
      intro h
      omega

theorem findChapterForNumber_first (n : Int) (bounds : List (String × Int)) (t : String) :
    findChapterForNumber n bounds = some t →
    ∃ l₁ b l₂, bounds = l₁ ++ (t, b) :: l₂ ∧ n ≤ b ∧ ∀ p ∈ l₁, p.2 < n := by
  induction bounds with
  | nil => simp [findChapterForNumber]
  | cons tb rest ih =>
    obtain ⟨t₀, b₀⟩ := tb
    by_cases hle : n ≤ b₀
    · simp only [findChapterForNumber, if_pos hle, Option.some.injEq]
      intro ht
      exact ⟨[], b₀, rest, by simp [ht], hle, by simp⟩
    · simp only [findChapterForNumber, if_neg hle]
      intro ht
      obtain ⟨l₁, b, l₂, hdecomp, hnb, hsmall⟩ := ih ht
      refine ⟨(t₀, b₀) :: l₁, b, l₂, by simp [hdecomp], hnb, ?_⟩
      intro p hp
      rcases List.mem_cons.mp hp with hp | hp
      · rw [hp]; omega
      · exact hsmall p hp

theorem findChapterForNumber_mem_fst (n : Int) (bounds : List (String × Int)) (t : String) :
    findChapterForNumber n bounds = some t → t ∈ bounds.map Prod.fst := by
  intro h
  obtain ⟨l₁, b, l₂, hdecomp, -, -⟩ := findChapterForNumber_first n bounds t h
  rw [hdecomp]
  simp

theorem chapterCheckErrors_mem (bounds : List (String × Int)) (stories : List Story)
    (s : Story) (hs : s ∈ stories) (hnone : findChapterForNumber s.number bounds = none) :
    chapterMsg s ∈ chapterCheckErrors bounds stories := by
  simp only [chapterCheckErrors, List.mem_filterMap]
  exact ⟨s, hs, by simp [hnone]⟩

/-! ### Claim C1: the chapter-partition rule -/

/-- Claim C1: a story belongs to the first chapter, iterating boundaries in
ascending order, whose boundary number is at least the story number; a
story whose number exceeds every boundary belongs to no chapter and Novel
validation reports an error naming that story.  With boundaries
A:1, B:10, C:20 the numbers map 1 to A, 5 to B, 10 to B, 15 to C, and 21
produces the membership error, also end to end through
`Novel.load_if_valid`. -/
theorem chapter_partition_rule :
    (∀ (n : Int) (bounds : List (String × Int)),
       findChapterForNumber n bounds = none ↔ ∀ p ∈ bounds, p.2 < n)
    ∧ (∀ (n : Int) (bounds : List (String × Int)) (t : String),
         findChapterForNumber n bounds = some t →
         ∃ l₁ b l₂, bounds = l₁ ++ (t, b) :: l₂ ∧ n ≤ b ∧ ∀ p ∈ l₁, p.2 < n)
    ∧ (findChapterForNumber 1 [("A", 1), ("B", 10), ("C", 20)] = some "A"
       ∧ findChapterForNumber 5 [("A", 1), ("B", 10), ("C", 20)] = some "B"
       ∧ findChapterForNumber 10 [("A", 1), ("B", 10), ("C", 20)] = some "B"
       ∧ findChapterForNumber 15 [("A", 1), ("B", 10), ("C", 20)] = some "C"
       ∧ findChapterForNumber 21 [("A", 1), ("B", 10), ("C", 20)] = none)
    ∧ (∀ (bounds : List (String × Int)) (stories : List Story) (s : Story),
         s ∈ stories → findChapterForNumber s.number bounds = none →
         chapterMsg s ∈ chapterCheckErrors bounds stories)
    ∧ novelLoadIfValid "d"
        [("index.md", FileData.content
            ["# title", "T", "# tags", "- t", "# status", "連載中", "# outline", "o",
             "# chapters", "A: 1", "B: 10", "C: 20"]),
         ("021.md", FileData.content
            ["# title", "S", "# number", "21", "# content", "c"])] =
        Except.ok (Sum.inr ["Story 021.md (number=21) does not belong to any chapter"]) :=
  ⟨findChapterForNumber_none_iff, findChapterForNumber_first,
   ⟨by decide, by decide, by decide, by decide, by decide⟩,
   chapterCheckErrors_mem, by decide⟩

/-- Witness for C1 at a concrete story and boundary list. -/
theorem chapter_partition_rule_w :
    findChapterForNumber
      ({ path := "d/021.md", title := "S", number := 21, content := "c", length := 1 } : Story).number
      [("A", 1), ("B", 10), ("C", 20)] = none
    ∧ chapterMsg { path := "d/021.md", title := "S", number := 21, content := "c", length := 1 } ∈
        chapterCheckErrors [("A", 1), ("B", 10), ("C", 20)]
          [{ path := "d/021.md", title := "S", number := 21, content := "c", length := 1 }] :=
  ⟨by decide,
   chapter_partition_rule.2.2.2.1 [("A", 1), ("B", 10), ("C", 20)]
     [{ path := "d/021.md", title := "S", number := 21, content := "c", length := 1 }]
     { path := "d/021.md", title := "S", number := 21, content := "c", length := 1 }
     (by decide) (by decide)⟩

/-! ### Supporting lemmas: the section parser scan -/

/-- The keys a scan state accounts for: flushed keys plus the open key. -/
def stKeys (st : MdState) : List String :=
  mdKeys st.result ++ st.currentKey.toList

theorem mdKeys_mdFlush (st : MdState) : mdKeys (mdFlush st) = stKeys st := by
  cases h : st.currentKey <;> simp [mdFlush, stKeys, mdKeys, h]

theorem mdRun_append (st : MdState) (l₁ l₂ : List String) :
    mdRun st (l₁ ++ l₂) =
      match mdRun st l₁ with
      | Except.error k => Except.error k
      | Except.ok st₂ => mdRun st₂ l₂ := by
  induction l₁ generalizing st with
  | nil => simp [mdRun]
  | cons line rest ih =>
    simp only [List.cons_append, mdRun]
    cases mdStep st line with
    | error k => rfl
    | ok st₂ => exact ih st₂

theorem markersOf_cons_some {line : String} {k : String} (rest : List String)
    (hm : markerName line = some k) : markersOf (line :: rest) = k :: markersOf rest := by
  simp [markersOf, List.filterMap_cons, hm]

theorem markersOf_cons_none {line : String} (rest : List String)
    (hm : markerName line = none) : markersOf (line :: rest) = markersOf rest := by
  simp [markersOf, List.filterMap_cons, hm]

theorem stKeys_after_marker (st : MdState) (k : String) :
    stKeys ⟨mdFlush st, some k, []⟩ = stKeys st ++ [k] := by
  show mdKeys (mdFlush st) ++ [k] = stKeys st ++ [k]
  rw [mdKeys_mdFlush]

theorem mdStep_nonmarker {st : MdState} {line : String} {st₁ : MdState}
    (hm : markerName line = none) (hstep : mdStep st line = Except.ok st₁) :
    stKeys st₁ = stKeys st := by
  simp only [mdStep, hm] at hstep
  cases hck : st.currentKey <;> rw [hck] at hstep <;> cases hstep <;> simp [stKeys, hck]

theorem mdStep_marker {st : MdState} {line : String} {k : String} {st₁ : MdState}
    (hm : markerName line = some k) (hstep : mdStep st line = Except.ok st₁) :
    k ∉ stKeys st ∧ stKeys st₁ = stKeys st ++ [k] := by
  simp only [mdStep, hm] at hstep
  by_cases hdup : (mdKeys (mdFlush st)).contains k
  · rw [if_pos hdup] at hstep; exact absurd hstep (by simp)
  · rw [if_neg hdup] at hstep
    have hk : k ∉ stKeys st := by
      rw [mdKeys_mdFlush] at hdup
      simpa using hdup
    cases hstep
    exact ⟨hk, stKeys_after_marker st k⟩

theorem mdRun_ok_markers (lines : List String) :
    ∀ st st₂, mdRun st lines = Except.ok st₂ → stKeys st₂ = stKeys st ++ markersOf lines := by
  induction lines with
  | nil =>
    intro st st₂ h
    simp only [mdRun, Except.ok.injEq] at h
    simp [← h, markersOf]
  | cons line rest ih =>
    intro st st₂ h
    simp only [mdRun] at h
    cases hstep : mdStep st line with
    | error k => rw [hstep] at h; exact absurd h (by simp)
    | ok st₁ =>
      rw [hstep] at h
      cases hm : markerName line with
      | some k =>
        obtain ⟨-, hkeys⟩ := mdStep_marker hm hstep
        rw [ih st₁ st₂ h, hkeys, markersOf_cons_some rest hm]
        simp
      | none =>
        rw [ih st₁ st₂ h, mdStep_nonmarker hm hstep, markersOf_cons_none rest hm]

theorem mdRun_ok_nodup (lines : List String) :
    ∀ st st₂, mdRun st lines = Except.ok st₂ → (stKeys st).Nodup → (stKeys st₂).Nodup := by
  induction lines with
  | nil =>
    intro st st₂ h hnd
    simp only [mdRun, Except.ok.injEq] at h
    rwa [← h]
  | cons line rest ih =>
    intro st st₂ h hnd
    simp only [mdRun] at h
    cases hstep : mdStep st line with
    | error k => rw [hstep] at h; exact absurd h (by simp)
    | ok st₁ =>
      rw [hstep] at h
      refine ih st₁ st₂ h ?_
      cases hm : markerName line with
      | some k =>
        obtain ⟨hk, hkeys⟩ := mdStep_marker hm hstep
        rw [hkeys]
        simpa [List.nodup_append] using ⟨hnd, hk⟩
      | none => rwa [mdStep_nonmarker hm hstep]

theorem mdRun_ok_of_nodup (lines : List String) :
    ∀ st, (stKeys st ++ markersOf lines).Nodup → ∃ st₂, mdRun st lines = Except.ok st₂ := by
  induction lines with
  | nil => intro st _; exact ⟨st, rfl⟩
  | cons line rest ih =>
    intro st hnd
    cases hm : markerName line with
    | some k =>
      rw [markersOf_cons_some rest hm] at hnd
      have hnd₂ : ((stKeys st ++ [k]) ++ markersOf rest).Nodup := by
        rwa [List.append_assoc, List.singleton_append]
      have hk : k ∉ stKeys st := by
        intro hmem
        exact (List.nodup_append.mp hnd).2.2 hmem (by simp)
      have hstep : mdStep st line = Except.ok ⟨mdFlush st, some k, []⟩ := by
        simp [mdStep, hm, mdKeys_mdFlush, hk]
      obtain ⟨st₂, h₂⟩ := ih ⟨mdFlush st, some k, []⟩ (by rwa [stKeys_after_marker])
      exact ⟨st₂, by simp [mdRun, hstep, h₂]⟩
    | none =>
      rw [markersOf_cons_none rest hm] at hnd
      cases hck : st.currentKey with
      | some ck =>
        have hstep : mdStep st line = Except.ok { st with buffer := st.buffer ++ [line] } := by
          simp [mdStep, hm, hck]
        obtain ⟨st₂, h₂⟩ := ih { st with buffer := st.buffer ++ [line] } hnd
        exact ⟨st₂, by simp [mdRun, hstep, h₂]⟩
      | none =>
        have hstep : mdStep st line = Except.ok st := by
          simp [mdStep, hm, hck]
        obtain ⟨st₂, h₂⟩ := ih st hnd
        exact ⟨st₂, by simp [mdRun, hstep, h₂]⟩

theorem mdRun_no_markers (lines : List String) (h : ∀ l ∈ lines, markerName l = none) :
    mdRun ⟨[], none, []⟩ lines = Except.ok ⟨[], none, []⟩ := by
  induction lines with
  | nil => rfl
  | cons line rest ih =>
    have hm : markerName line = none := h line (List.mem_cons_self _ _)
    have hstep : mdStep ⟨[], none, []⟩ line = Except.ok ⟨[], none, []⟩ := by
      simp [mdStep, hm]
    simp only [mdRun, hstep]
    exact ih fun l hl => h l (List.mem_cons_of_mem _ hl)

/-! ### Claim C8: duplicate markers fail fast -/

/-- Claim C8: a document with two identically-named top-level markers fails
with the duplicate-section error naming that key, raised the moment the
second marker is scanned — the lines after it cannot change the outcome —
and any document whose marker names repeat fails with a duplicate error. -/
theorem md_duplicate_fail_fast :
    (∀ (pre : List String) (m : String) (suf : List String) (k : String),
       (markersOf pre).Nodup → k ∈ markersOf pre → markerName m = some k →
       mdToJson (pre ++ m :: suf) = Except.error k)
    ∧ (∀ lines : List String, ¬(markersOf lines).Nodup →
        ∃ k, mdToJson lines = Except.error k) := by
  constructor
  · intro pre m suf k hnd hk hm
    have hinit : stKeys ⟨[], none, []⟩ = [] := rfl
    obtain ⟨st, hrun⟩ := mdRun_ok_of_nodup pre ⟨[], none, []⟩ (by rw [hinit]; simpa)
    have hkeys : stKeys st = markersOf pre := by
      have := mdRun_ok_markers pre _ _ hrun
      rwa [hinit, List.nil_append] at this
    have hcont : (mdKeys (mdFlush st)).contains k = true := by
      rw [mdKeys_mdFlush, hkeys]
      simpa using hk
    have hstep : mdStep st m = Except.error k := by
      have hkm : k ∈ mdKeys (mdFlush st) := by simpa using hcont
      simp [mdStep, hm, hkm]
    rw [mdToJson, mdRun_append, hrun]
    simp [mdRun, hstep]
  · intro lines hnd
    cases hrun : mdRun ⟨[], none, []⟩ lines with
    | error k => exact ⟨k, by simp [mdToJson, hrun]⟩
    | ok st =>
      exfalso
      have hkeys : stKeys st = markersOf lines := by
        have h₁ := mdRun_ok_markers lines _ _ hrun
        have h₂ : stKeys ⟨[], none, []⟩ = [] := rfl
        rw [h₂, List.nil_append] at h₁
        exact h₁
      exact hnd (hkeys ▸ mdRun_ok_nodup lines _ _ hrun (by simp [stKeys, mdKeys]))

/-- Witness for C8 at a concrete duplicated document. -/
theorem md_duplicate_fail_fast_w :
    (markersOf ["# a"]).Nodup ∧ "a" ∈ markersOf ["# a"] ∧ markerName "# a" = some "a"
    ∧ mdToJson (["# a"] ++ "# a" :: ["body after the failure"]) = Except.error "a" :=
  ⟨by decide, by decide, by decide,
   md_duplicate_fail_fast.1 ["# a"] "# a" ["body after the failure"] "a"
     (by decide) (by decide) (by decide)⟩

/-! ### Claim C9: marker lines with empty names -/

/-- Counterexample to claim C9: the line consisting of the marker character
and a space IS treated as a marker by `md_to_json`; it contributes the
empty-string key, so the one-line document made of it parses to a
single-entry map, not to the empty map the claim states. -/
theorem md_empty_marker_cex :
    mdToJson ["# "] = Except.ok [("", "")]
    ∧ Except.ok [("", "")] ≠ (Except.ok [] : Except String (List (String × String))) := by
  constructor
  · decide
  · decide

/-- Claim C9 as amended: a line is a top-level marker exactly when its
content, after stripping leading whitespace, begins with the marker
character and one space — the name may be empty; an empty name contributes
the empty-string key (a second empty-named marker raises the duplicate
error naming the empty key), and a document with no marker lines at all
parses to the empty map without error. -/
theorem md_marker_empty_name :
    (∀ line : String, (markerName line).isSome = pyStartsWith (pyLstrip line) "# ")
    ∧ markerName "# " = some ""
    ∧ mdToJson ["# "] = Except.ok [("", "")]
    ∧ mdToJson ["# ", "x", "# "] = Except.error ""
    ∧ (∀ lines : List String, (∀ l ∈ lines, markerName l = none) →
        mdToJson lines = Except.ok []) := by
  refine ⟨?_, by decide, by decide, by decide, ?_⟩
  · intro line
    by_cases h : pyStartsWith (pyLstrip line) "# " <;> simp [markerName, h]
  · intro lines h
    simp [mdToJson, mdRun_no_markers lines h, mdFlush]

/-- Witness for C9 (amended) at a concrete marker-free document. -/
theorem md_marker_empty_name_w :
    (∀ l ∈ ["plain text", "  ## sub", "#notmarker"], markerName l = none)
    ∧ mdToJson ["plain text", "  ## sub", "#notmarker"] = Except.ok [] :=
  ⟨by decide,
   md_marker_empty_name.2.2.2.2 ["plain text", "  ## sub", "#notmarker"] (by decide)⟩

/-! ### Claim C5: the number check is not skipped by earlier errors -/

/-- Counterexample to claim C5: a story document with an unexpected header
(already an error) and a non-integer `number` gets BOTH errors: the
`number` must be an integer check is not skipped once another validation
error exists — story.py lines 76-82 run unconditionally. -/
theorem story_number_check_cex :
    storyLoadIfValid "1.md"
      (FileData.content ["# title", "T", "# number", "abc", "# junk", "x", "# content", "hi"]) =
    Except.ok (Sum.inr ["Unexpected header: junk", "`number` must be an integer"]) := by
  decide

/-- Claim C5 as amended: once any validation error has been recorded, Story
construction is skipped — the validator returns the error list and no
partially built Story — but numeric parsing of the `number` field is NOT
skipped: whenever `number` is present, non-blank and not integer-shaped,
its error is reported, also alongside errors from other rules. -/
theorem story_errors_skip_construction_only :
    (∀ (p : String) (lines : List String) (data : List (String × String)),
       mdToJson lines = Except.ok data → storyErrors data ≠ [] →
       storyLoadIfValid p (FileData.content lines) = Except.ok (Sum.inr (storyErrors data)))
    ∧ (∀ (p : String) (lines : List String) (data : List (String × String)) (st : Story),
         mdToJson lines = Except.ok data →
         storyLoadIfValid p (FileData.content lines) = Except.ok (Sum.inl st) →
         storyErrors data = [])
    ∧ (∀ data : List (String × String),
         hasKey data "number" →
         ¬(pyStrip ((lookupStr data "number").getD "")).isEmpty →
         ¬isIntString (pyStrip ((lookupStr data "number").getD "")) →
         "`number` must be an integer" ∈ storyErrors data) := by
  refine ⟨?_, ?_, ?_⟩
  · intro p lines data hmd hne
    rw [storyLoadIfValid, hmd]
    simp [List.isEmpty_iff, hne]
  · intro p lines data st hmd hload
    rw [storyLoadIfValid, hmd] at hload
    by_cases h : (storyErrors data).isEmpty
    · exact List.isEmpty_iff.mp h
    · simp [h] at hload
  · intro data h₁ h₂ h₃
    have : (if hasKey data "number" && !(pyStrip ((lookupStr data "number").getD "")).isEmpty
              && !isIntString (pyStrip ((lookupStr data "number").getD ""))
            then ["`number` must be an integer"] else []) = ["`number` must be an integer"] := by
      simp only [h₁, Bool.true_and]
      rw [if_pos (by simp [h₂, h₃])]
    unfold storyErrors
    simp only [this]
    simp

/-- Witness for C5 (amended) at the counterexample document. -/
theorem story_errors_skip_construction_only_w :
    mdToJson ["# title", "T", "# number", "abc", "# junk", "x", "# content", "hi"] =
      Except.ok [("title", "T"), ("number", "abc"), ("junk", "x"), ("content", "hi")]
    ∧ storyErrors [("title", "T"), ("number", "abc"), ("junk", "x"), ("content", "hi")] ≠ []
    ∧ storyLoadIfValid "1.md"
        (FileData.content ["# title", "T", "# number", "abc", "# junk", "x", "# content", "hi"]) =
        Except.ok (Sum.inr (storyErrors
          [("title", "T"), ("number", "abc"), ("junk", "x"), ("content", "hi")]))
    ∧ "`number` must be an integer" ∈ storyErrors
        [("title", "T"), ("number", "abc"), ("junk", "x"), ("content", "hi")] :=
  ⟨by decide, by decide,
   story_errors_skip_construction_only.1 "1.md"
     ["# title", "T", "# number", "abc", "# junk", "x", "# content", "hi"]
     [("title", "T"), ("number", "abc"), ("junk", "x"), ("content", "hi")]
     (by decide) (by decide),
   story_errors_skip_construction_only.2.2
     [("title", "T"), ("number", "abc"), ("junk", "x"), ("content", "hi")]
     (by decide) (by decide) (by decide)⟩

/-! ### Claim C3: validator outcomes at the I/O boundary -/

/-- Counterexample to claim C3: a story document that is not decodable as
UTF-8 does NOT yield a descriptive error in a returned list —
`Story.load_if_valid` only catches `JsonKeyDuplicateError`, so the
`UnicodeDecodeError` raised inside `md.md_to_json` escapes as an unhandled
exception (and the same happens in `Novel.load_if_valid`). -/
theorem story_undecodable_cex :
    storyLoadIfValid "1.md" FileData.undecodable = Except.error PyExc.unicodeDecodeError := by
  decide

/-- Claim C3 as amended: whenever a validator returns, it returns exactly a
fully-formed record or a non-empty list of error strings, and a missing
document is a single descriptive error in all three validators; an
undecodable document is a single descriptive error only in
`TopPage.load_if_valid`, while `Story.load_if_valid` and
`Novel.load_if_valid` let the `UnicodeDecodeError` escape as an unhandled
exception. -/
theorem validators_record_or_errors :
    (∀ (p : String) (fd : FileData) (errs : List String),
       storyLoadIfValid p fd = Except.ok (Sum.inr errs) → errs ≠ [])
    ∧ (∀ p : String,
         storyLoadIfValid p FileData.missing = Except.ok (Sum.inr ["Story file not found: " ++ p]))
    ∧ (∀ p : String,
         storyLoadIfValid p FileData.undecodable = Except.error PyExc.unicodeDecodeError)
    ∧ (∀ (dp : String) (files : List (String × FileData)) (errs : List String),
         novelLoadIfValid dp files = Except.ok (Sum.inr errs) → errs ≠ [])
    ∧ (∀ (dp : String) (files : List (String × FileData)),
         lookupFile files "index.md" = FileData.missing →
         novelLoadIfValid dp files =
           Except.ok (Sum.inr ["Novel index file not found: " ++ (dp ++ "/index.md")]))
    ∧ (∀ (dp : String) (files : List (String × FileData)),
         lookupFile files "index.md" = FileData.undecodable →
         novelLoadIfValid dp files = Except.error PyExc.unicodeDecodeError)
    ∧ (∀ (sp : String) (fd : FileData) (dirs : List (String × List (String × FileData)))
         (mt : String → Option Int) (errs : List String),
         topPageLoadIfValid sp fd dirs mt = Except.ok (Sum.inr errs) → errs ≠ [])
    ∧ (∀ (sp : String) (dirs : List (String × List (String × FileData)))
         (mt : String → Option Int),
         topPageLoadIfValid sp FileData.missing dirs mt =
           Except.ok (Sum.inr ["Self intro file not found: " ++ sp]))
    ∧ (∀ (sp : String) (dirs : List (String × List (String × FileData)))
         (mt : String → Option Int),
         topPageLoadIfValid sp FileData.undecodable dirs mt =
           Except.ok (Sum.inr ["Self intro file is not valid UTF-8: " ++ sp])) := by
  refine ⟨?_, fun p => rfl, fun p => rfl, ?_, ?_, ?_, ?_, fun sp dirs mt => rfl,
    fun sp dirs mt => rfl⟩
  · intro p fd errs h
    cases fd with
    | missing =>
      simp only [storyLoadIfValid, Except.ok.injEq, Sum.inr.injEq] at h
      rw [← h]; simp
    | undecodable => simp [storyLoadIfValid] at h
    | content lines =>
      rw [storyLoadIfValid] at h
      cases hmd : mdToJson lines with
      | error k =>
        rw [hmd] at h
        simp only [Except.ok.injEq, Sum.inr.injEq] at h
        rw [← h]; simp
      | ok data =>
        rw [hmd] at h
        by_cases he : (storyErrors data).isEmpty
        · simp [he] at h
        · simp only [if_neg he, Except.ok.injEq, Sum.inr.injEq] at h
          rw [← h]
          simpa [List.isEmpty_iff] using he
  · intro dp files errs h
    rw [novelLoadIfValid] at h
    cases hidx : lookupFile files "index.md" with
    | missing =>
      rw [hidx] at h
      simp only [Except.ok.injEq, Sum.inr.injEq] at h
      rw [← h]; simp
    | undecodable => rw [hidx] at h; simp at h
    | content lines =>
      rw [hidx] at h
      dsimp only at h
      cases hmd : mdToJson lines with
      | error k =>
        rw [hmd] at h
        simp only [Except.ok.injEq, Sum.inr.injEq] at h
        rw [← h]; simp
      | ok data =>
        rw [hmd] at h
        dsimp only at h
        by_cases hh : (novelHeaderErrors data).isEmpty
        · rw [if_pos hh] at h
          cases hcol : collectStories dp (storyFilesOf files) with
          | error e => rw [hcol] at h; simp at h
          | ok pair =>
            obtain ⟨stories, serrs⟩ := pair
            rw [hcol] at h
            by_cases he : (serrs ++ dupNumErrors (stories.map Story.number)
                ++ chapterGateErrors data stories).isEmpty
            · simp only [List.isEmpty_iff, List.append_eq_nil, and_assoc] at he
              simp [he.1, he.2.1, he.2.2] at h
            · simp only [if_neg he, Except.ok.injEq, Sum.inr.injEq] at h
              rw [← h]
              simpa [List.isEmpty_iff] using he
        · simp only [if_neg hh, Except.ok.injEq, Sum.inr.injEq] at h
          rw [← h]
          simpa [List.isEmpty_iff] using hh
  · intro dp files hidx
    simp [novelLoadIfValid, hidx]
  · intro dp files hidx
    simp [novelLoadIfValid, hidx]
  · intro sp fd dirs mt errs h
    cases fd with
    | missing =>
      simp only [topPageLoadIfValid, Except.ok.injEq, Sum.inr.injEq] at h
      rw [← h]; simp
    | undecodable =>
      simp only [topPageLoadIfValid, Except.ok.injEq, Sum.inr.injEq] at h
      rw [← h]; simp
    | content lines =>
      rw [topPageLoadIfValid] at h
      by_cases hblank : (pyStrip (joinLines lines)).isEmpty
      · simp only [if_pos hblank, Except.ok.injEq, Sum.inr.injEq] at h
        rw [← h]; simp
      · rw [if_neg hblank] at h
        dsimp only at h
        cases hscan : scanNovels (pathParent sp)
            (List.insertionSort (fun a b => strLE a.1 b.1 = true) dirs) with
        | error e => rw [hscan] at h; simp at h
        | ok pair =>
          obtain ⟨pairs, errs₀⟩ := pair
          rw [hscan] at h
          dsimp only at h
          by_cases he : errs₀.isEmpty
          · simp [he] at h
          · simp only [if_neg he, Except.ok.injEq, Sum.inr.injEq] at h
            rw [← h]
            simpa [List.isEmpty_iff] using he

/-- Witness for C3 (amended) at concrete inputs. -/
theorem validators_record_or_errors_w :
    storyLoadIfValid "a/1.md" FileData.missing =
      Except.ok (Sum.inr ["Story file not found: " ++ "a/1.md"])
    ∧ lookupFile [("index.md", FileData.missing)] "index.md" = FileData.missing
    ∧ novelLoadIfValid "d" [("index.md", FileData.missing)] =
        Except.ok (Sum.inr ["Novel index file not found: " ++ ("d" ++ "/index.md")])
    ∧ lookupFile [("index.md", FileData.undecodable)] "index.md" = FileData.undecodable
    ∧ novelLoadIfValid "d" [("index.md", FileData.undecodable)] =
        Except.error PyExc.unicodeDecodeError
    ∧ (["No H1 headers found. Required headers: title, number, content",
        "Missing required header: title", "Missing required header: number",
        "Missing required header: content"] : List String) ≠ [] :=
  ⟨validators_record_or_errors.2.1 "a/1.md",
   by decide,
   validators_record_or_errors.2.2.2.2.1 "d" [("index.md", FileData.missing)] (by decide),
   by decide,
   validators_record_or_errors.2.2.2.2.2.1 "d" [("index.md", FileData.undecodable)] (by decide),
   validators_record_or_errors.1 "a/1.md" (FileData.content ["plain body"])
     ["No H1 headers found. Required headers: title, number, content",
      "Missing required header: title", "Missing required header: number",
      "Missing required header: content"] (by decide)⟩

/-! ### Supporting lemmas: the composite sort key -/

theorem charListLE_refl (a : List Char) : charListLE a a = true := by
  induction a with
  | nil => rfl
  | cons x xs ih => simp [charListLE, ih]

theorem charListLE_trans (a : List Char) :
    ∀ b c, charListLE a b = true → charListLE b c = true → charListLE a c = true := by
  induction a with
  | nil => intro b c _ _; rfl
  | cons x xs ih =>
    intro b c h1 h2
    cases b with
    | nil => simp [charListLE] at h1
    | cons y ys =>
      cases c with
      | nil => simp [charListLE] at h2
      | cons z zs =>
        simp only [charListLE] at h1 h2 ⊢
        by_cases hxy : x.toNat < y.toNat
        · by_cases hyz : y.toNat < z.toNat
          · rw [if_pos (by omega)]
          · by_cases hzy : z.toNat < y.toNat
            · rw [if_neg hyz, if_pos hzy] at h2
              exact absurd h2 (by simp)
            · rw [if_pos (by omega)]
        · by_cases hyx : y.toNat < x.toNat
          · rw [if_neg hxy, if_pos hyx] at h1
            exact absurd h1 (by simp)
          · by_cases hyz : y.toNat < z.toNat
            · rw [if_pos (by omega)]
            · by_cases hzy : z.toNat < y.toNat
              · rw [if_neg hyz, if_pos hzy] at h2
                exact absurd h2 (by simp)
              · rw [if_neg hxy, if_neg hyx] at h1
                rw [if_neg hyz, if_neg hzy] at h2
                rw [if_neg (by omega), if_neg (by omega)]
                exact ih ys zs h1 h2

theorem charListLE_total (a : List Char) :
    ∀ b, charListLE a b = true ∨ charListLE b a = true := by
  induction a with
  | nil => intro b; left; rfl
  | cons x xs ih =>
    intro b
    cases b with
    | nil => right; rfl
    | cons y ys =>
      simp only [charListLE]
      by_cases hxy : x.toNat < y.toNat
      · left; rw [if_pos hxy]
      · by_cases hyx : y.toNat < x.toNat
        · right; rw [if_pos hyx]
        · rw [if_neg hxy, if_neg hyx, if_neg hyx, if_neg hxy]
          exact ih ys

theorem strLE_refl (a : String) : strLE a a = true := charListLE_refl a.data

theorem strLE_trans (a b c : String) :
    strLE a b = true → strLE b c = true → strLE a c = true :=
  charListLE_trans a.data b.data c.data

theorem strLE_total (a b : String) : strLE a b = true ∨ strLE b a = true :=
  charListLE_total a.data b.data

theorem keyTupleLE_refl (x : Int × Nat × String) : keyTupleLE x x = true := by
  simp [keyTupleLE, strLE_refl]

theorem keyTupleLE_of_eq {x y : Int × Nat × String} (h : x = y) : keyTupleLE x y = true := by
  rw [h]; exact keyTupleLE_refl y

theorem keyTupleLE_trans (x y z : Int × Nat × String)
    (h1 : keyTupleLE x y = true) (h2 : keyTupleLE y z = true) : keyTupleLE x z = true := by
  obtain ⟨x1, x2, x3⟩ := x
  obtain ⟨y1, y2, y3⟩ := y
  obtain ⟨z1, z2, z3⟩ := z
  simp only [keyTupleLE, Bool.or_eq_true, Bool.and_eq_true, decide_eq_true_eq] at h1 h2 ⊢
  rcases h1 with h1 | ⟨e1, h1⟩
  · rcases h2 with h2 | ⟨e2, h2⟩
    · left; omega
    · left; omega
  · rcases h2 with h2 | ⟨e2, h2⟩
    · left; omega
    · refine Or.inr ⟨by omega, ?_⟩
      rcases h1 with h1 | ⟨f1, h1⟩
      · rcases h2 with h2 | ⟨f2, h2⟩
        · left; omega
        · left; omega
      · rcases h2 with h2 | ⟨f2, h2⟩
        · left; omega
        · exact Or.inr ⟨by omega, strLE_trans _ _ _ h1 h2⟩

theorem keyTupleLE_total (x y : Int × Nat × String) :
    keyTupleLE x y = true ∨ keyTupleLE y x = true := by
  obtain ⟨x1, x2, x3⟩ := x
  obtain ⟨y1, y2, y3⟩ := y
  simp only [keyTupleLE, Bool.or_eq_true, Bool.and_eq_true, decide_eq_true_eq]
  rcases lt_trichotomy x1 y1 with h | h | h
  · left; left; exact h
  · rcases lt_trichotomy x2 y2 with h2 | h2 | h2
    · left; exact Or.inr ⟨h, Or.inl h2⟩
    · rcases strLE_total x3 y3 with h3 | h3
      · left; exact Or.inr ⟨h, Or.inr ⟨h2, h3⟩⟩
      · right; exact Or.inr ⟨h.symm, Or.inr ⟨h2.symm, h3⟩⟩
    · right; exact Or.inr ⟨h.symm, Or.inl h2⟩
  · right; left; exact h

theorem novelLE_trans (mt : String → Option Int) (a b c : Novel)
    (h1 : novelLE mt a b = true) (h2 : novelLE mt b c = true) : novelLE mt a c = true :=
  keyTupleLE_trans _ _ _ h1 h2

theorem novelLE_total (mt : String → Option Int) (a b : Novel) :
    novelLE mt a b = true ∨ novelLE mt b a = true :=
  keyTupleLE_total _ _

/-- Stability of the novel sort: the elements carrying any fixed composite
key keep their original relative order. -/
theorem topPageSortNovels_filter_key (mt : String → Option Int) (ns : List Novel)
    (k : Int × Nat × String) :
    (topPageSortNovels mt ns).filter (fun n => decide (novelSortKey mt n = k)) =
      ns.filter fun n => decide (novelSortKey mt n = k) := by
  have hc : (ns.filter fun n => decide (novelSortKey mt n = k)).Pairwise
      fun a b => novelLE mt a b = true := by
    refine List.pairwise_of_forall_mem_list ?_
    intro a ha b hb
    have hka : novelSortKey mt a = k := by simpa using List.of_mem_filter ha
    have hkb : novelSortKey mt b = k := by simpa using List.of_mem_filter hb
    exact keyTupleLE_of_eq (hka.trans hkb.symm)
  have h1 : (ns.filter fun n => decide (novelSortKey mt n = k)) <+
      List.insertionSort (fun a b => novelLE mt a b = true) ns :=
    List.sublist_insertionSort hc (List.filter_sublist ns)
  have h2 : (List.insertionSort (fun a b => novelLE mt a b = true) ns).filter
        (fun n => decide (novelSortKey mt n = k)) ~
      ns.filter fun n => decide (novelSortKey mt n = k) :=
    (List.perm_insertionSort _ ns).filter _
  have h3 : (ns.filter fun n => decide (novelSortKey mt n = k)) <+
      (List.insertionSort (fun a b => novelLE mt a b = true) ns).filter
        fun n => decide (novelSortKey mt n = k) := by
    have h4 := h1.filter fun n => decide (novelSortKey mt n = k)
    have h5 : List.filter (fun n => decide (novelSortKey mt n = k))
          (List.filter (fun n => decide (novelSortKey mt n = k)) ns) =
        List.filter (fun n => decide (novelSortKey mt n = k)) ns := by
      rw [List.filter_filter]
      exact List.filter_congr fun a _ => by simp
    rwa [h5] at h4
  exact (h3.eq_of_length h2.length_eq.symm).symm

def exNovelRec (t st pth : String) : Novel :=
  { path := pth, title := t, tags := "- t", status := st, outline := "o",
    external_links := none, chapters := none, has_external_links := false,
    has_chapters := false, stories := [], num_stories := 0, total_length := 0 }

def exNovelA : Novel := exNovelRec "t" "連載中" "pa"

def exNovelB : Novel := exNovelRec "a" "完結済" "pb"

def exNovelC : Novel := exNovelRec "b" "連載中" "pc"

def exNovelD : Novel := exNovelRec "a" "連載中" "pd"

def exMtime : String → Option Int := fun p =>
  if p = "pa" then some 100
  else if p = "pb" then some 50
  else if p = "pc" then some 50
  else if p = "pd" then some 50
  else none

/-! ### Claim C4: the top-page composite ordering -/

/-- Claim C4: accepted Novels are ordered by the composite key — most
recent mtime over index and story documents descending, then the fixed
status priority 連載中 before 完結済 before 更新停止 ascending, then title
ascending — and the sort is stable: full ties keep their prior relative
order.  The concrete case exercises all three key components. -/
theorem toppage_novel_ordering :
    (statusOrder "連載中" = 0 ∧ statusOrder "完結済" = 1 ∧ statusOrder "更新停止" = 2
      ∧ statusOrder "anything else" = 999)
    ∧ (∀ (mt : String → Option Int) (ns : List Novel), topPageSortNovels mt ns ~ ns)
    ∧ (∀ (mt : String → Option Int) (ns : List Novel),
         (topPageSortNovels mt ns).Pairwise fun a b => novelLE mt a b = true)
    ∧ (∀ (mt : String → Option Int) (ns : List Novel) (k : Int × Nat × String),
         (topPageSortNovels mt ns).filter (fun n => decide (novelSortKey mt n = k)) =
           ns.filter fun n => decide (novelSortKey mt n = k))
    ∧ topPageSortNovels exMtime [exNovelA, exNovelB, exNovelC, exNovelD] =
        [exNovelA, exNovelD, exNovelC, exNovelB] := by
  refine ⟨⟨by decide, by decide, by decide, by decide⟩, ?_, ?_, topPageSortNovels_filter_key,
    by decide⟩
  · intro mt ns
    exact List.perm_insertionSort _ ns
  · intro mt ns
    haveI : IsTotal Novel fun a b => novelLE mt a b = true := ⟨novelLE_total mt⟩
    haveI : IsTrans Novel fun a b => novelLE mt a b = true :=
      ⟨fun a b c => novelLE_trans mt a b c⟩
    exact List.sorted_insertionSort _ ns

/-! ### Supporting lemmas: invariants of the built Novel -/

theorem pairwise_lt_of_pairwise_le {α β : Type} [LinearOrder β] (f : α → β) (l : List α)
    (hle : l.Pairwise fun a b => f a ≤ f b) (hnd : (l.map f).Nodup) :
    l.Pairwise fun a b => f a < f b := by
  have hne : l.Pairwise fun a b => f a ≠ f b := List.pairwise_map.mp hnd
  exact (hle.and hne).imp fun h => lt_of_le_of_ne h.1 h.2

theorem mem_foldl_firstOcc (l : List Int) :
    ∀ (acc : List Int) (v : Int), (v ∈ acc ∨ v ∈ l) →
      v ∈ l.foldl (fun acc n => if acc.contains n then acc else acc ++ [n]) acc := by
  induction l with
  | nil =>
    intro acc v h
    rcases h with h | h
    · exact h
    · cases h
  | cons x xs ih =>
    intro acc v h
    simp only [List.foldl_cons]
    by_cases hc : acc.contains x
    · rw [if_pos hc]
      refine ih acc v ?_
      rcases h with h | h
      · exact Or.inl h
      · rcases List.mem_cons.mp h with h | h
        · subst h; exact Or.inl (by simpa using hc)
        · exact Or.inr h
    · rw [if_neg hc]
      refine ih (acc ++ [x]) v ?_
      rcases h with h | h
      · exact Or.inl (List.mem_append_left _ h)
      · rcases List.mem_cons.mp h with h | h
        · subst h; exact Or.inl (List.mem_append_right _ (by simp))
        · exact Or.inr h

theorem mem_firstOccurrences {v : Int} {l : List Int} (h : v ∈ l) :
    v ∈ firstOccurrences l :=
  mem_foldl_firstOcc l [] v (Or.inr h)

theorem dupNumErrors_eq_nil {nums : List Int} (h : dupNumErrors nums = []) : nums.Nodup := by
  rw [List.nodup_iff_count_le_one]
  intro v
  by_cases hv : v ∈ nums
  · by_contra hc
    push_neg at hc
    have h1 := List.filterMap_eq_nil_iff.mp h v (mem_firstOccurrences hv)
    rw [if_pos (by omega)] at h1
    exact absurd h1 (by simp)
  · rw [List.count_eq_zero_of_not_mem hv]
    omega

theorem chaptersParseLoop_nodup (lines : List String) :
    ∀ tmp : List (String × Int),
      ((tmp.map Prod.fst).Nodup ∧ (tmp.map Prod.snd).Nodup) →
      (((chaptersParseLoop lines tmp).2.map Prod.fst).Nodup
        ∧ ((chaptersParseLoop lines tmp).2.map Prod.snd).Nodup) := by
  induction lines with
  | nil => intro tmp h; exact h
  | cons l rest ih =>
    intro tmp h
    rw [chaptersParseLoop]
    cases hsplit : splitColon1 l.data with
    | none => simp
    | some kv =>
      obtain ⟨kRaw, vRaw⟩ := kv
      dsimp only
      by_cases h1 : (pyStrip ⟨kRaw⟩ : String).isEmpty ∨ (pyStrip ⟨vRaw⟩ : String).isEmpty
      · rw [if_pos (by simpa using h1)]
        simp
      · rw [if_neg (by simpa using h1)]
        by_cases h2 : (tmp.map Prod.fst).contains (pyStrip ⟨kRaw⟩)
        · rw [if_pos h2]; simp
        · rw [if_neg h2]
          by_cases h3 : isIntString (pyStrip ⟨vRaw⟩)
          · rw [if_neg (by simpa using h3)]
            by_cases h4 : (tmp.map Prod.snd).contains (parseIntStr (pyStrip ⟨vRaw⟩))
            · rw [if_pos h4]; simp
            · rw [if_neg h4]
              refine ih _ ⟨?_, ?_⟩
              · rw [List.map_append]
                simp only [List.map_cons, List.map_nil]
                rw [List.nodup_append]
                refine ⟨h.1, List.nodup_singleton _, ?_⟩
                intro a ha hb
                simp only [List.mem_singleton] at hb
                subst hb
                have hnotin : pyStrip (⟨kRaw⟩ : String) ∉ tmp.map Prod.fst := by
                  simpa using h2
                exact hnotin ha
              · rw [List.map_append]
                simp only [List.map_cons, List.map_nil]
                rw [List.nodup_append]
                refine ⟨h.2, List.nodup_singleton _, ?_⟩
                intro a ha hb
                simp only [List.mem_singleton] at hb
                subst hb
                have hnotin : parseIntStr (pyStrip (⟨vRaw⟩ : String)) ∉ tmp.map Prod.snd := by
                  simpa using h4
                exact hnotin ha
          · rw [if_pos (by simpa using h3)]
            simp

theorem novelChapterParse_nodup (data : List (String × String)) :
    (((novelChapterParse data).2.map Prod.fst).Nodup
      ∧ ((novelChapterParse data).2.map Prod.snd).Nodup) := by
  rw [novelChapterParse]
  cases lookupStr data "chapters" with
  | none => simp
  | some v =>
    dsimp only
    by_cases h : (nonblankStripped v).isEmpty
    · rw [if_pos h]; simp
    · rw [if_neg h]
      exact chaptersParseLoop_nodup _ [] (by simp)

theorem novelChaptersVal_some {data : List (String × String)} {ch : List (String × Int)}
    (h : novelChaptersVal data = some ch) :
    ch.Pairwise (fun a b => a.2 < b.2) ∧ (ch.map Prod.fst).Nodup ∧ ch ≠ [] := by
  rw [novelChaptersVal] at h
  by_cases hc : (!((novelChapterParse data).2).isEmpty
      && (novelHeaderErrors data).isEmpty) = true
  · rw [if_pos hc] at h
    obtain ⟨htmp, -⟩ := Bool.and_eq_true_iff.mp hc
    have hch : ch = List.insertionSort (fun a b => a.2 ≤ b.2) (novelChapterParse data).2 := by
      exact (Option.some.injEq _ _ ▸ h).symm
    obtain ⟨hfst, hsnd⟩ := novelChapterParse_nodup data
    have hperm : List.insertionSort (fun a b : String × Int => a.2 ≤ b.2)
        (novelChapterParse data).2 ~ (novelChapterParse data).2 :=
      List.perm_insertionSort _ _
    haveI : IsTotal (String × Int) fun a b => a.2 ≤ b.2 := ⟨fun a b => le_total a.2 b.2⟩
    haveI : IsTrans (String × Int) fun a b => a.2 ≤ b.2 :=
      ⟨fun a b c h₁ h₂ => le_trans h₁ h₂⟩
    have hsorted : ch.Pairwise fun a b : String × Int => a.2 ≤ b.2 := by
      rw [hch]; exact List.sorted_insertionSort _ _
    have hndsnd : (ch.map Prod.snd).Nodup := by
      rw [hch]; exact (hperm.map Prod.snd).nodup_iff.mpr hsnd
    refine ⟨pairwise_lt_of_pairwise_le Prod.snd ch hsorted hndsnd, ?_, ?_⟩
    · rw [hch]; exact (hperm.map Prod.fst).nodup_iff.mpr hfst
    · rw [hch]
      intro hnil
      rw [← List.length_eq_zero, List.length_insertionSort,
        List.length_eq_zero] at hnil
      rw [hnil] at htmp
      simp at htmp
  · rw [if_neg hc] at h
    exact absurd h (by simp)

/-! ### Supporting lemmas: the grouped view -/

theorem appendToGroup_map (bounds : List (String × Int)) (g : String → List Story)
    (t : String) (s : Story) :
    appendToGroup (bounds.map fun tb => (tb.1, g tb.1)) t s =
      bounds.map fun tb => (tb.1, if tb.1 = t then g tb.1 ++ [s] else g tb.1) := by
  rw [appendToGroup, List.map_map]
  refine List.map_congr_left ?_
  intro tb _
  by_cases h : tb.1 = t <;> simp [h]

theorem foldl_groupStep (bounds : List (String × Int)) :
    ∀ (stories : List Story) (g : String → List Story),
      stories.foldl (groupStep bounds) (bounds.map fun tb => (tb.1, g tb.1)) =
        bounds.map fun tb =>
          (tb.1, g tb.1 ++ stories.filter fun s =>
            decide (findChapterForNumber s.number bounds = some tb.1)) := by
  intro stories
  induction stories with
  | nil =>
    intro g
    simp
  | cons s rest ih =>
    intro g
    simp only [List.foldl_cons]
    cases hfind : findChapterForNumber s.number bounds with
    | none =>
      have hstep : groupStep bounds (bounds.map fun tb => (tb.1, g tb.1)) s =
          bounds.map fun tb => (tb.1, g tb.1) := by
        rw [groupStep, hfind]
      rw [hstep, ih g]
      refine List.map_congr_left ?_
      intro tb _
      have : (List.filter (fun s => decide (findChapterForNumber s.number bounds = some tb.1))
          (s :: rest)) = rest.filter fun s =>
            decide (findChapterForNumber s.number bounds = some tb.1) := by
        rw [List.filter_cons_of_neg]
        simp [hfind]
      rw [this]
    | some t =>
      have hstep : groupStep bounds (bounds.map fun tb => (tb.1, g tb.1)) s =
          bounds.map fun tb =>
            (tb.1, (fun x => if x = t then g x ++ [s] else g x) tb.1) := by
        rw [groupStep, hfind]
        exact appendToGroup_map bounds g t s
      rw [hstep, ih fun x => if x = t then g x ++ [s] else g x]
      refine List.map_congr_left ?_
      intro tb _
      simp only [Prod.mk.injEq, true_and]
      by_cases ht : tb.1 = t
      · rw [if_pos ht, List.filter_cons_of_pos (by simp [hfind, ht]),
          List.append_assoc, List.singleton_append]
      · rw [if_neg ht, List.filter_cons_of_neg (by simp [hfind]; exact fun h => ht h.symm)]

theorem buildGroups_eq_filter (bounds : List (String × Int)) (stories : List Story) :
    buildGroups bounds stories = bounds.map fun tb =>
      (tb.1, stories.filter fun s =>
        decide (findChapterForNumber s.number bounds = some tb.1)) := by
  have hinit : (bounds.map fun tb => (tb.1, ([] : List Story))) =
      bounds.map fun tb => (tb.1, (fun _ => ([] : List Story)) tb.1) := rfl
  rw [buildGroups, hinit, foldl_groupStep bounds stories fun _ => []]
  simp

theorem flatten_ite_perm (s : Story) (F : String → List Story) :
    ∀ (bl : List (String × Int)), (bl.map Prod.fst).Nodup → ∀ t₀, t₀ ∈ bl.map Prod.fst →
      (bl.map fun tb => (if tb.1 = t₀ then s :: F tb.1 else F tb.1)).flatten ~
        s :: (bl.map fun tb => F tb.1).flatten := by
  intro bl
  induction bl with
  | nil => intro _ t₀ h; cases h
  | cons tb rest ih =>
    intro hnd t₀ hmem
    simp only [List.map_cons, List.nodup_cons, List.mem_cons] at hnd hmem ⊢
    by_cases ht : tb.1 = t₀
    · rw [if_pos ht]
      have hrest : (rest.map fun tb => (if tb.1 = t₀ then s :: F tb.1 else F tb.1)) =
          rest.map fun tb => F tb.1 := by
        refine List.map_congr_left ?_
        intro tb₂ h₂
        rw [if_neg]
        intro he
        refine hnd.1 ?_
        rw [ht, ← he]
        exact List.mem_map_of_mem Prod.fst h₂
      rw [List.flatten_cons, hrest, List.cons_append, List.flatten_cons]
    · rw [if_neg ht]
      have ht₀ : t₀ ∈ rest.map Prod.fst := by
        rcases hmem with h | h
        · exact absurd h.symm ht
        · exact h
      have hperm := ih hnd.2 t₀ ht₀
      calc (F tb.1 :: (rest.map fun tb =>
              (if tb.1 = t₀ then s :: F tb.1 else F tb.1))).flatten
          = F tb.1 ++ (rest.map fun tb =>
              (if tb.1 = t₀ then s :: F tb.1 else F tb.1)).flatten := by
            rw [List.flatten_cons]
        _ ~ F tb.1 ++ s :: (rest.map fun tb => F tb.1).flatten := hperm.append_left _
        _ ~ s :: (F tb.1 ++ (rest.map fun tb => F tb.1).flatten) := List.perm_middle
        _ = s :: (F tb.1 :: (rest.map fun tb => F tb.1)).flatten := by
            rw [List.flatten_cons]

theorem flatten_filter_perm (bounds : List (String × Int))
    (hnd : (bounds.map Prod.fst).Nodup) :
    ∀ stories : List Story,
      (∀ s' ∈ stories, (findChapterForNumber s'.number bounds).isSome) →
      (bounds.map fun tb => stories.filter fun s =>
        decide (findChapterForNumber s.number bounds = some tb.1)).flatten ~ stories := by
  intro stories
  induction stories with
  | nil =>
    intro _
    have : (bounds.map fun tb => List.filter (fun s =>
        decide (findChapterForNumber s.number bounds = some tb.1)) ([] : List Story)) =
        bounds.map fun _ => [] := by simp
    rw [this]
    have : (bounds.map fun _ => ([] : List Story)).flatten = [] := by
      simp [List.flatten_eq_nil_iff]
    rw [this]
  | cons s rest ih =>
    intro hall
    obtain ⟨t₀, hfind⟩ := Option.isSome_iff_exists.mp (hall s (List.mem_cons_self _ _))
    have ht₀ : t₀ ∈ bounds.map Prod.fst := findChapterForNumber_mem_fst _ _ _ hfind
    have hstep : (bounds.map fun tb => List.filter (fun s =>
        decide (findChapterForNumber s.number bounds = some tb.1)) (s :: rest)) =
        bounds.map fun tb =>
          (if tb.1 = t₀ then s :: List.filter (fun s =>
            decide (findChapterForNumber s.number bounds = some tb.1)) rest
           else List.filter (fun s =>
            decide (findChapterForNumber s.number bounds = some tb.1)) rest) := by
      refine List.map_congr_left ?_
      intro tb _
      by_cases ht : tb.1 = t₀
      · rw [if_pos ht, List.filter_cons_of_pos (by simp [hfind, ht])]
      · rw [if_neg ht, List.filter_cons_of_neg (by simp [hfind]; exact fun h => ht h.symm)]
    rw [hstep]
    have hrec := ih fun s' hs' => hall s' (List.mem_cons_of_mem _ hs')
    exact (flatten_ite_perm s
      (fun x => List.filter (fun s' =>
        decide (findChapterForNumber s'.number bounds = some x)) rest)
      bounds hnd t₀ ht₀).trans (hrec.cons s)

/-- Inversion of the success path of `Novel.load_if_valid`. -/
theorem novelLoadIfValid_ok {dp : String} {files : List (String × FileData)} {n : Novel}
    (h : novelLoadIfValid dp files = Except.ok (Sum.inl n)) :
    ∃ (lines : List String) (data : List (String × String))
      (stories : List Story),
      lookupFile files "index.md" = FileData.content lines
      ∧ mdToJson lines = Except.ok data
      ∧ novelHeaderErrors data = []
      ∧ collectStories dp (storyFilesOf files) = Except.ok (stories, [])
      ∧ dupNumErrors (stories.map Story.number) = []
      ∧ chapterGateErrors data stories = []
      ∧ n = buildNovel (dp ++ "/index.md") data stories := by
  rw [novelLoadIfValid] at h
  cases hidx : lookupFile files "index.md" with
  | missing => rw [hidx] at h; simp at h
  | undecodable => rw [hidx] at h; simp at h
  | content lines =>
    rw [hidx] at h
    dsimp only at h
    cases hmd : mdToJson lines with
    | error k => rw [hmd] at h; simp at h
    | ok data =>
      rw [hmd] at h
      dsimp only at h
      by_cases hh : (novelHeaderErrors data).isEmpty
      · rw [if_pos hh] at h
        cases hcol : collectStories dp (storyFilesOf files) with
        | error e => rw [hcol] at h; simp at h
        | ok pair =>
          obtain ⟨stories, serrs⟩ := pair
          rw [hcol] at h
          dsimp only at h
          by_cases he : (serrs ++ dupNumErrors (stories.map Story.number)
              ++ chapterGateErrors data stories).isEmpty
          · rw [if_pos he] at h
            simp only [Except.ok.injEq, Sum.inl.injEq] at h
            simp only [List.isEmpty_iff, List.append_eq_nil, and_assoc] at he
            refine ⟨lines, data, stories, rfl, hmd, List.isEmpty_iff.mp hh, ?_, he.2.1,
              he.2.2, h.symm⟩
            rw [he.1]
          · rw [if_neg he] at h
            simp at h
      · rw [if_neg hh] at h
        simp at h

/-! ### Claim C7: the chapter-grouped view of a validated Novel -/

set_option maxHeartbeats 1000000 in
/-- Claim C7: for a Novel accepted by `Novel.load_if_valid`,
`get_stories_ordered` is a pure function of the stored fields: with
chapters present it returns the buckets keyed by the chapter titles in
ascending boundary order, whose values concatenated in key order contain
every Story exactly once, ascending by number within each chapter (each
bucket is the number-ordered stories the partition rule assigns to it);
without chapters it returns the flat stories tuple, which is sorted
ascending by number. -/
theorem novel_grouped_view :
    ∀ (dp : String) (files : List (String × FileData)) (n : Novel),
      novelLoadIfValid dp files = Except.ok (Sum.inl n) →
      (n.stories.Pairwise fun a b => a.number < b.number)
      ∧ (n.chapters = none → getStoriesOrdered n = StoriesView.flat n.stories)
      ∧ ∀ ch, n.chapters = some ch →
          ch.Pairwise (fun a b => a.2 < b.2)
          ∧ getStoriesOrdered n = StoriesView.grouped (buildGroups ch n.stories)
          ∧ (buildGroups ch n.stories).map Prod.fst = ch.map Prod.fst
          ∧ ((buildGroups ch n.stories).map Prod.snd).flatten ~ n.stories
          ∧ ∀ g ∈ buildGroups ch n.stories,
              g.2 = n.stories.filter
                  (fun s => decide (findChapterForNumber s.number ch = some g.1))
              ∧ g.2.Pairwise fun a b => a.number < b.number := by
  intro dp files n h
  obtain ⟨lines, data, stories, -, -, -, -, hdup, hchap, hn⟩ := novelLoadIfValid_ok h
  have hstories : n.stories = sortStoriesByNumber stories := by rw [hn]; rfl
  have hchapters : n.chapters = novelChaptersVal data := by rw [hn]; rfl
  have hhaschap : n.has_chapters = (novelChaptersVal data).isSome := by rw [hn]; rfl
  haveI : IsTotal Story fun a b => a.number ≤ b.number := ⟨fun a b => le_total _ _⟩
  haveI : IsTrans Story fun a b => a.number ≤ b.number := ⟨fun a b c => le_trans⟩
  have hperm : sortStoriesByNumber stories ~ stories := List.perm_insertionSort _ _
  have hle : n.stories.Pairwise fun a b => a.number ≤ b.number := by
    rw [hstories]
    exact List.sorted_insertionSort _ _
  have hnodup : (n.stories.map Story.number).Nodup := by
    rw [hstories]
    exact (hperm.map Story.number).nodup_iff.mpr (dupNumErrors_eq_nil hdup)
  have hlt : n.stories.Pairwise fun a b => a.number < b.number :=
    pairwise_lt_of_pairwise_le Story.number n.stories hle hnodup
  refine ⟨hlt, ?_, ?_⟩
  · intro hnone
    simp [getStoriesOrdered, hnone]
  · intro ch hch
    have hsome : novelChaptersVal data = some ch := by rw [← hchapters, hch]
    obtain ⟨hchsorted, hchnodupfst, hchne⟩ := novelChaptersVal_some hsome
    have hall : ∀ s' ∈ n.stories, (findChapterForNumber s'.number ch).isSome := by
      rw [chapterGateErrors, hsome] at hchap
      intro s' hs'
      have hs'' : s' ∈ stories := by
        rw [hstories] at hs'
        exact (List.mem_insertionSort _).mp hs'
      have hf := List.filterMap_eq_nil_iff.mp hchap s' hs''
      by_cases hiso : (findChapterForNumber s'.number ch).isNone
      · rw [if_pos hiso] at hf
        exact absurd hf (by simp)
      · rw [Option.isSome_iff_ne_none]
        simpa using hiso
    refine ⟨hchsorted, ?_, ?_, ?_, ?_⟩
    · have h1 : n.has_chapters = true := by rw [hhaschap, hsome]; rfl
      simp [getStoriesOrdered, hch, h1, List.isEmpty_iff, hchne]
    · rw [buildGroups_eq_filter, List.map_map]
      rfl
    · have hmapsnd : (buildGroups ch n.stories).map Prod.snd =
          ch.map fun tb => n.stories.filter fun s =>
            decide (findChapterForNumber s.number ch = some tb.1) := by
        rw [buildGroups_eq_filter, List.map_map]
        rfl
      rw [hmapsnd]
      exact flatten_filter_perm ch hchnodupfst n.stories hall
    · intro g hg
      rw [buildGroups_eq_filter] at hg
      obtain ⟨tb, -, rfl⟩ := List.mem_map.mp hg
      exact ⟨rfl, hlt.filter _⟩

def exC7Index : List String :=
  ["# title", "T", "# tags", "- t", "# status", "連載中", "# outline", "o",
   "# chapters", "A: 1", "B: 10", "C: 20"]

def exC7Files : List (String × FileData) :=
  [("index.md", FileData.content exC7Index),
   ("001.md", FileData.content ["# title", "s1", "# number", "1", "# content", "c1"]),
   ("005.md", FileData.content ["# title", "s5", "# number", "5", "# content", "c5"]),
   ("010.md", FileData.content ["# title", "s10", "# number", "10", "# content", "c10"]),
   ("015.md", FileData.content ["# title", "s15", "# number", "15", "# content", "c15"])]

def exC7Novel : Novel :=
  { path := "nd/index.md", title := "T", tags := "- t", status := "連載中", outline := "o",
    external_links := none, chapters := some [("A", 1), ("B", 10), ("C", 20)],
    has_external_links := false, has_chapters := true,
    stories :=
      [{ path := "nd/001.md", title := "s1", number := 1, content := "c1", length := 2 },
       { path := "nd/005.md", title := "s5", number := 5, content := "c5", length := 2 },
       { path := "nd/010.md", title := "s10", number := 10, content := "c10", length := 3 },
       { path := "nd/015.md", title := "s15", number := 15, content := "c15", length := 3 }],
    num_stories := 4, total_length := 10 }

/-- Witness for C7 at a concrete chaptered novel directory. -/
theorem novel_grouped_view_w :
    novelLoadIfValid "nd" exC7Files = Except.ok (Sum.inl exC7Novel)
    ∧ exC7Novel.chapters = some [("A", 1), ("B", 10), ("C", 20)]
    ∧ getStoriesOrdered exC7Novel =
        StoriesView.grouped (buildGroups [("A", 1), ("B", 10), ("C", 20)] exC7Novel.stories)
    ∧ ((buildGroups [("A", 1), ("B", 10), ("C", 20)] exC7Novel.stories).map
        Prod.snd).flatten ~ exC7Novel.stories :=
  ⟨by decide, by decide,
   ((novel_grouped_view "nd" exC7Files exC7Novel (by decide)).2.2
     [("A", 1), ("B", 10), ("C", 20)] (by decide)).2.1,
   ((novel_grouped_view "nd" exC7Files exC7Novel (by decide)).2.2
     [("A", 1), ("B", 10), ("C", 20)] (by decide)).2.2.2.1⟩

end Mogura
